import Mathlib

/-!
# Verification of the cc-cli configuration engine

Shallow embedding of the configuration-management core of the `cc-cli`
repository (the `ConfigManager` class and the `NotificationManager` class),
together with proofs of the specified properties.

JSON documents are modelled by the inductive type `Json` below: objects are
ordered association lists, matching the insertion-order semantics of
JavaScript objects and of `JSON.stringify`/`JSON.parse`.
-/

namespace CcCli

/-- A JSON value as held in memory by the JavaScript program.  Objects keep
their fields in insertion order; numbers are modelled by integers (the
program never does number arithmetic, only truthiness and equality tests). -/
inductive Json where
  | null
  | bool (b : Bool)
  | num (n : Int)
  | str (s : String)
  | arr (elems : List Json)
  | obj (fields : List (String × Json))

/-- Ordered field list of a JSON object. -/
abbrev Fields := List (String × Json)

namespace Json

mutual

/-- Structural equality of JSON values (field order significant, exactly as
`JSON.stringify` equality on values produced by `JSON.parse`). -/
def beq : Json → Json → Bool
  | .null, .null => true
  | .bool a, .bool b => a == b
  | .num a, .num b => a == b
  | .str a, .str b => a == b
  | .arr a, .arr b => beqList a b
  | .obj a, .obj b => beqFields a b
  | _, _ => false

def beqList : List Json → List Json → Bool
  | p :: ps, q :: qs => beq p q && beqList ps qs
  | [], [] => true
  | _, _ => false

def beqFields : Fields → Fields → Bool
  | (k₁, v₁) :: ps, (k₂, v₂) :: qs => k₁ == k₂ && beq v₁ v₂ && beqFields ps qs
  | [], [] => true
  | _, _ => false

end

instance : BEq Json := ⟨beq⟩

mutual

theorem beq_iff_eq : ∀ a b : Json, beq a b = true ↔ a = b
  | .null, b => by cases b <;> simp [beq]
  | .bool _, b => by cases b <;> simp [beq]
  | .num _, b => by cases b <;> simp [beq]
  | .str _, b => by cases b <;> simp [beq]
  | .arr x, b => by
      cases b <;> simp [beq, beqList_iff_eq x _]
  | .obj x, b => by
      cases b <;> simp [beq, beqFields_iff_eq x _]

theorem beqList_iff_eq : ∀ xs ys : List Json, beqList xs ys = true ↔ xs = ys
  | [], ys => by cases ys <;> simp [beqList]
  | x :: xs, ys => by
      cases ys with
      | nil => simp [beqList]
      | cons y ys =>
        simp [beqList, Bool.and_eq_true, beq_iff_eq x y, beqList_iff_eq xs ys]

theorem beqFields_iff_eq : ∀ xs ys : Fields, beqFields xs ys = true ↔ xs = ys
  | [], ys => by cases ys <;> simp [beqFields]
  | (k₁, v₁) :: xs, ys => by
      cases ys with
      | nil => simp [beqFields]
      | cons y ys =>
        obtain ⟨k₂, v₂⟩ := y
        simp [beqFields, Bool.and_eq_true, beq_iff_eq v₁ v₂,
          beqFields_iff_eq xs ys, and_assoc]

end

instance : LawfulBEq Json where
  eq_of_beq h := (beq_iff_eq _ _).mp h
  rfl := (beq_iff_eq _ _).mpr rfl

instance : DecidableEq Json := fun a b =>
  decidable_of_iff (beq a b = true) (beq_iff_eq a b)

/-- JavaScript truthiness of a value (`if (x)`), restricted to JSON values:
`null`, `false`, `0` and `""` are falsy; every object and array is truthy. -/
def truthy : Json → Bool
  | .null => false
  | .bool b => b
  | .num n => n != 0
  | .str s => s != ""
  | .arr _ => true
  | .obj _ => true

end Json

/-- Truthiness of an optional field value: an absent field (`undefined`)
is falsy. -/
def truthyOpt : Option Json → Bool
  | none => false
  | some v => v.truthy

/-- Field lookup in an object (JavaScript objects hold each key once). -/
def lookup : Fields → String → Option Json
  | [], _ => none
  | p :: rest, k => if p.1 = k then some p.2 else lookup rest k

/-- JavaScript property assignment `o[k] = v`: an existing key keeps its
position and gets the new value; a fresh key is appended at the end. -/
def setKey : Fields → String → Json → Fields
  | [], k, v => [(k, v)]
  | p :: rest, k, v => if p.1 = k then (k, v) :: rest else p :: setKey rest k v

/-- JavaScript `delete o[k]`. -/
def eraseKey : Fields → String → Fields
  | [], _ => []
  | p :: rest, k => if p.1 = k then eraseKey rest k else p :: eraseKey rest k

/-- Property access `j[k]` on an arbitrary value, for the (non-numeric)
property names used by this program: objects look the key up, every other
value yields `undefined` (`none`).  A `null` receiver would raise a
`TypeError` in JavaScript; the call sites embedded below either sit under a
`try`/`catch` or are only reached with non-null receivers. -/
def getField (j : Json) (k : String) : Option Json :=
  match j with
  | .obj fs => lookup fs k
  | _ => none

/-- The indexed own properties of an array (`{...[a,b]}` gives
`{"0":a,"1":b}`). -/
def jsIndexFields (es : List Json) : Fields :=
  es.enum.map (fun p => (toString p.1, p.2))

/-- JavaScript object spread `{...v}`: objects keep their fields, arrays and
strings expose their indexed elements, primitives contribute nothing. -/
def spreadToFields : Json → Fields
  | .obj fs => fs
  | .arr es => jsIndexFields es
  | .str s => s.data.enum.map (fun p => (toString p.1, .str (String.singleton p.2)))
  | _ => []

/-- Substring test on character lists (the model of
`String.prototype.includes`). -/
def containsSeq (hay pat : List Char) : Bool :=
  match hay with
  | [] => pat.isEmpty
  | _ :: t => pat.isPrefixOf hay || containsSeq t pat

/-- `s.includes(pat)` for strings. -/
def includesJs (s pat : String) : Bool :=
  containsSeq s.data pat.data

/-- The destination operand of the recursive merge call,
`result[key] || {}` followed by object spread: a truthy existing value is
spread, a falsy or absent one becomes the empty object. -/
def mergeDest (acc : Fields) (k : String) : Fields :=
  match lookup acc k with
  | some v => if v.truthy then spreadToFields v else []
  | none => []

mutual

/-- Structural size of a JSON value, used to bound the merge recursion. -/
def jsonSize : Json → Nat
  | .null => 1
  | .bool _ => 1
  | .num _ => 1
  | .str _ => 1
  | .arr es => 1 + jsonListSize es
  | .obj fs => 1 + fieldsSize fs

def jsonListSize : List Json → Nat
  | [] => 0
  | x :: xs => 1 + jsonSize x + jsonListSize xs

def fieldsSize : Fields → Nat
  | [] => 0
  | p :: rest => 1 + jsonSize p.2 + fieldsSize rest

end

/-- The recursion of `ConfigManager.deepMerge` on field lists, made
structural with a fuel argument bounded by the size of the source (the
fuel-free wrapper and its step equations follow); each source key is
walked in order, a non-null, non-array object value is merged recursively
into `result[key] || {}`, anything else overwrites. -/
def deepMergeFuel : Nat → Fields → Fields → Fields
  | _, acc, [] => acc
  | 0, acc, _ :: _ => acc
  | fuel + 1, acc, (k, v) :: rest =>
    match v with
    | .obj o =>
      deepMergeFuel fuel
        (setKey acc k (.obj (deepMergeFuel fuel (mergeDest acc k) o))) rest
    | w => deepMergeFuel fuel (setKey acc k w) rest

/-- `ConfigManager.deepMerge` on field lists. -/
def deepMergeF (acc src : Fields) : Fields :=
  deepMergeFuel (fieldsSize src) acc src

/-- `ConfigManager.deepMerge` on values: `{...target}` seeds the result and
the source's own enumerable keys are walked. -/
def deepMerge (target source : Json) : Json :=
  .obj (deepMergeF (spreadToFields target) (spreadToFields source))

theorem lookup_setKey_self (fs : Fields) (k : String) (v : Json) :
    lookup (setKey fs k v) k = some v := by
  induction fs with
  | nil => simp [lookup, setKey]
  | cons p rest ih =>
    by_cases hp : p.1 = k
    · simp [lookup, setKey, hp]
    · simp [lookup, setKey, hp, ih]

theorem lookup_setKey_ne (fs : Fields) (k k' : String) (v : Json)
    (h : k' ≠ k) : lookup (setKey fs k v) k' = lookup fs k' := by
  induction fs with
  | nil => simp [lookup, setKey, Ne.symm h]
  | cons p rest ih =>
    by_cases hp : p.1 = k
    · simp [lookup, setKey, hp, Ne.symm h]
    · by_cases hp' : p.1 = k'
      · simp [lookup, setKey, hp, hp', h]
      · simp [lookup, setKey, hp, hp', ih]

theorem lookup_eraseKey_self (fs : Fields) (k : String) :
    lookup (eraseKey fs k) k = none := by
  induction fs with
  | nil => simp [lookup, eraseKey]
  | cons p rest ih =>
    by_cases hp : p.1 = k
    · simpa [eraseKey, hp] using ih
    · simp [eraseKey, lookup, hp, ih]

theorem lookup_eraseKey_ne (fs : Fields) (k k' : String) (h : k' ≠ k) :
    lookup (eraseKey fs k) k' = lookup fs k' := by
  induction fs with
  | nil => simp [lookup, eraseKey]
  | cons p rest ih =>
    by_cases hp : p.1 = k
    · simp [eraseKey, hp, lookup, Ne.symm h, ih]
    · by_cases hp' : p.1 = k'
      · simp [eraseKey, lookup, hp, hp', h]
      · simp [eraseKey, lookup, hp, hp', ih]

/-- The value stored for a source key during one merge step: a non-null,
non-array object triggers the recursive merge, anything else is stored
as-is. -/
def mergeStep (acc : Fields) (k : String) (v : Json) : Json :=
  match v with
  | .obj o => .obj (deepMergeF (mergeDest acc k) o)
  | w => w

theorem deepMergeFuel_congr :
    ∀ (f g : Nat) (acc src : Fields), fieldsSize src ≤ f → fieldsSize src ≤ g →
      deepMergeFuel f acc src = deepMergeFuel g acc src := by
  intro f
  induction f with
  | zero =>
    intro g acc src hf _
    cases src with
    | nil => cases g <;> rfl
    | cons p rest => simp [fieldsSize] at hf
  | succ f ih =>
    intro g acc src hf hg
    cases src with
    | nil => cases g <;> rfl
    | cons p rest =>
      obtain ⟨k, v⟩ := p
      cases g with
      | zero => simp [fieldsSize] at hg
      | succ g =>
        simp only [fieldsSize] at hf hg
        cases v with
        | obj o =>
          simp only [jsonSize] at hf hg
          simp only [deepMergeFuel]
          rw [ih g (mergeDest acc k) o (by omega) (by omega)]
          exact ih g _ rest (by omega) (by omega)
        | null => exact ih g _ rest (by omega) (by omega)
        | bool b => exact ih g _ rest (by omega) (by omega)
        | num n => exact ih g _ rest (by omega) (by omega)
        | str s => exact ih g _ rest (by omega) (by omega)
        | arr es => exact ih g _ rest (by omega) (by omega)

theorem deepMergeF_nil (acc : Fields) : deepMergeF acc [] = acc := rfl

theorem deepMergeF_cons (acc : Fields) (k : String) (v : Json) (rest : Fields) :
    deepMergeF acc ((k, v) :: rest) =
      deepMergeF (setKey acc k (mergeStep acc k v)) rest := by
  show deepMergeFuel (fieldsSize ((k, v) :: rest)) acc ((k, v) :: rest) = _
  have hsz : fieldsSize ((k, v) :: rest) = jsonSize v + fieldsSize rest + 1 := by
    simp only [fieldsSize]; omega
  rw [hsz]
  cases v with
  | obj o =>
    simp only [deepMergeFuel, mergeStep, deepMergeF]
    rw [deepMergeFuel_congr (jsonSize (Json.obj o) + fieldsSize rest)
        (fieldsSize o) (mergeDest acc k) o (by simp only [jsonSize]; omega) (by omega)]
    exact deepMergeFuel_congr _ _ _ rest (by simp only [jsonSize]; omega) (by omega)
  | null =>
    simp only [deepMergeFuel, mergeStep, deepMergeF]
    exact deepMergeFuel_congr _ _ _ rest (by simp only [jsonSize]; omega) (by omega)
  | bool b =>
    simp only [deepMergeFuel, mergeStep, deepMergeF]
    exact deepMergeFuel_congr _ _ _ rest (by simp only [jsonSize]; omega) (by omega)
  | num n =>
    simp only [deepMergeFuel, mergeStep, deepMergeF]
    exact deepMergeFuel_congr _ _ _ rest (by simp only [jsonSize]; omega) (by omega)
  | str s =>
    simp only [deepMergeFuel, mergeStep, deepMergeF]
    exact deepMergeFuel_congr _ _ _ rest (by simp only [jsonSize]; omega) (by omega)
  | arr es =>
    simp only [deepMergeFuel, mergeStep, deepMergeF]
    exact deepMergeFuel_congr _ _ _ rest (by simp only [jsonSize]; omega) (by omega)

theorem lookup_eq_none_of_not_mem (fs : Fields) (k : String)
    (h : k ∉ fs.map Prod.fst) : lookup fs k = none := by
  induction fs with
  | nil => simp [lookup]
  | cons p rest ih =>
    simp only [List.map_cons, List.mem_cons, not_or] at h
    simp [lookup, Ne.symm h.1, ih h.2]

theorem mem_of_lookup_eq_some (fs : Fields) (k : String) (v : Json)
    (h : lookup fs k = some v) : k ∈ fs.map Prod.fst := by
  induction fs with
  | nil => simp [lookup] at h
  | cons p rest ih =>
    by_cases hp : p.1 = k
    · simp [hp]
    · simp only [lookup, hp, if_false] at h
      simp [ih h]

theorem deepMergeF_lookup_notin (k : String) :
    ∀ (src acc : Fields), lookup src k = none →
      lookup (deepMergeF acc src) k = lookup acc k := by
  intro src
  induction src with
  | nil => intro acc _; simp [deepMergeF_nil]
  | cons p rest ih =>
    intro acc h
    obtain ⟨k₀, v⟩ := p
    by_cases hk : k₀ = k
    · simp [lookup, hk] at h
    · simp only [lookup, hk, if_false] at h
      rw [deepMergeF_cons, ih _ h, lookup_setKey_ne _ _ _ _ (Ne.symm hk)]

theorem deepMergeF_lookup_none_iff (k : String) :
    ∀ (src acc : Fields),
      lookup (deepMergeF acc src) k = none ↔
        (lookup acc k = none ∧ lookup src k = none) := by
  intro src
  induction src with
  | nil => intro acc; simp [deepMergeF_nil, lookup]
  | cons p rest ih =>
    intro acc
    obtain ⟨k₀, v⟩ := p
    rw [deepMergeF_cons, ih]
    by_cases hk : k₀ = k
    · subst hk
      simp [lookup, lookup_setKey_self]
    · simp [lookup, hk, lookup_setKey_ne _ _ _ _ (Ne.symm hk)]

theorem deepMergeF_lookup_of_src (k : String) (v : Json) :
    ∀ (src acc : Fields), (src.map Prod.fst).Nodup →
      lookup src k = some v →
      lookup (deepMergeF acc src) k = some (mergeStep acc k v) := by
  intro src
  induction src with
  | nil => intro acc _ h; simp [lookup] at h
  | cons p rest ih =>
    intro acc hnd h
    obtain ⟨k₀, w⟩ := p
    simp only [List.map_cons, List.nodup_cons] at hnd
    by_cases hk : k₀ = k
    · subst hk
      have hw : w = v := by simpa [lookup] using h
      subst hw
      rw [deepMergeF_cons,
        deepMergeF_lookup_notin k₀ rest _ (lookup_eq_none_of_not_mem _ _ hnd.1),
        lookup_setKey_self]
    · simp only [lookup, hk, if_false] at h
      rw [deepMergeF_cons]
      have hres := ih (setKey acc k₀ (mergeStep acc k₀ w)) hnd.2 h
      rwa [show mergeStep (setKey acc k₀ (mergeStep acc k₀ w)) k v
            = mergeStep acc k v from ?_] at hres
      cases v with
      | obj o =>
        simp [mergeStep, mergeDest, lookup_setKey_ne _ _ _ _ (Ne.symm hk)]
      | null => rfl
      | bool _ => rfl
      | num _ => rfl
      | str _ => rfl
      | arr _ => rfl

/-- The field value at `k` when it is JS-truthy, `none` otherwise. -/
def truthyField (j : Json) (k : String) : Option Json :=
  match getField j k with
  | some v => if v.truthy then some v else none
  | none => none

/-- `ConfigManager.getClaudeConfig`: prefer a truthy `claude` field, fall
back to a truthy `config` field, otherwise raise. -/
def getClaudeConfigE (siteConfig : Json) : Except String Json :=
  match truthyField siteConfig "claude" with
  | some c => .ok c
  | none =>
    match truthyField siteConfig "config" with
    | some g => .ok g
    | none => .error "站点配置缺少claude或config字段"

/-- The per-entry body of the read-time compatibility pass in
`ConfigManager.getAllConfigs`: `if (site.claude && !site.config)
site.config = site.claude`. -/
def compatSite (site : Json) : Json :=
  match site with
  | .obj sf =>
    match truthyField (.obj sf) "claude" with
    | some c =>
      if truthyOpt (lookup sf "config") then .obj sf
      else .obj (setKey sf "config" c)
    | none => .obj sf
  | other => other

/-- The read-time compatibility pass of `ConfigManager.getAllConfigs`
(`if (config.sites) for (siteKey in config.sites) ...`).  A truthy
non-object `sites` value is outside the Credential Store data model and is
modelled as left unchanged (for a string value the loop body has no effect
in JavaScript either). -/
def compatPass (config : Json) : Json :=
  match config with
  | .obj fs =>
    match lookup fs "sites" with
    | some (.obj sites) =>
      .obj (setKey fs "sites" (.obj (sites.map (fun p => (p.1, compatSite p.2)))))
    | _ => .obj fs
  | other => other

/-- The per-entry body of `ConfigManager.normalizeConfig`: migrate a lone
`config` to `claude`, or drop a `config` that duplicates `claude`.  The
source compares `JSON.stringify` images; on this ordered model with a
fixed serialization that is exactly structural equality. -/
def normalizeSite (site : Json) : Json :=
  match site with
  | .obj sf =>
    match lookup sf "config", lookup sf "claude" with
    | some g, cl =>
      if g.truthy && !truthyOpt cl then
        .obj (eraseKey (setKey sf "claude" g) "config")
      else if truthyOpt cl && g.truthy then
        if cl = some g then .obj (eraseKey sf "config") else .obj sf
      else .obj sf
    | none, _ => .obj sf
  | other => other

/-- `ConfigManager.normalizeConfig` (`if (!config.sites) return config`,
then the per-site pass).  As with `compatPass`, a truthy non-object
`sites` value is outside the data model and left unchanged. -/
def normalizeConfig (config : Json) : Json :=
  match config with
  | .obj fs =>
    match lookup fs "sites" with
    | some (.obj sites) =>
      .obj (setKey fs "sites" (.obj (sites.map (fun p => (p.1, normalizeSite p.2)))))
    | _ => .obj fs
  | other => other

/-- `typeof x === "string"` on an optional field value. -/
def isStrOpt : Option Json → Bool
  | some (.str _) => true
  | _ => false

/-- The ECMAScript `WhiteSpace`/`LineTerminator` character set that
`String.prototype.trim` removes. -/
def isJsSpace (c : Char) : Bool :=
  c == '\t' || c == '\n' || c == '\x0b' || c == '\x0c' || c == '\r' ||
  c == ' ' || c == '\u00A0' || c == '\u1680' ||
  ('\u2000' ≤ c && c ≤ '\u200A') || c == '\u2028' || c == '\u2029' ||
  c == '\u202F' || c == '\u205F' || c == '\u3000' || c == '\uFEFF'

/-- Truthiness of `authToken.trim()`: the trimmed string is non-empty
exactly when some character is not ECMAScript whitespace. -/
def trimmedNonempty (s : String) : Bool :=
  s.data.any (fun c => !isJsSpace c)

/-- The env checks of `ConfigManager.validateConfig`'s loop body:
`!actualConfig.env` rejection, required truthy `ANTHROPIC_AUTH_TOKEN`,
mutual exclusion and string check for the two base-URL variants, then the
token type rules (`Object.keys(x).length` counts entries for both plain
objects and arrays). -/
def validateEnvB (env : Json) : Bool :=
  if !env.truthy then false
  else
    let tok := getField env "ANTHROPIC_AUTH_TOKEN"
    if !truthyOpt tok then false
    else
      let base := getField env "ANTHROPIC_BASE_URL"
      let vertex := getField env "ANTHROPIC_VERTEX_BASE_URL"
      if truthyOpt base && truthyOpt vertex then false
      else if !truthyOpt base && !truthyOpt vertex then false
      else if truthyOpt base && !isStrOpt base then false
      else if truthyOpt vertex && !isStrOpt vertex then false
      else
        match tok with
        | some (.str s) => trimmedNonempty s
        | some (.obj tfs) => tfs.length != 0
        | some (.arr tes) => tes.length != 0
        | _ => false

/-- The fragment checks of the loop body (the `env` access plus
`validateEnvB`). -/
def validateFragB (actualConfig : Json) : Bool :=
  match getField actualConfig "env" with
  | none => false
  | some env => validateEnvB env

/-- The per-entry body of `ConfigManager.validateConfig`'s loop (all the
early `return false` conditions for one site). -/
def validateSite (siteConfig : Json) : Bool :=
  truthyOpt (getField siteConfig "url") &&
  (match getClaudeConfigE siteConfig with
   | .error _ => false
   | .ok actualConfig => validateFragB actualConfig)

/-- `ConfigManager.validateConfig`: the store must be a truthy
`typeof "object"` value with a truthy `typeof "object"` `sites` field, and
every site entry must pass `validateSite`.  A `sites` array is iterated by
`Object.entries` element-wise, exactly as in JavaScript. -/
def validateConfig (config : Json) : Bool :=
  match config with
  | .obj fs =>
    match lookup fs "sites" with
    | some (.obj sites) => sites.all (fun p => validateSite p.2)
    | some (.arr es) => es.all validateSite
    | _ => false
  | _ => false

/-- The observable state of one JSON file on disk: absent, present with
text `JSON.parse` rejects (raising a message), or parsed to a value. -/
inductive FileState where
  | missing
  | malformed (msg : String)
  | parsed (doc : Json)

/-- The error thrown by `getAllConfigs` when the store file is absent. -/
def missingStoreMsg : String := "API配置文件不存在，请检查 ~/.claude/api_configs.json"

/-- The substring on which the `catch` block of `getAllConfigs` decides to
rethrow unwrapped. -/
def missingStoreMark : String := "API配置文件不存在"

/-- `ConfigManager.getAllConfigs`: the try-block raises a dedicated error
for an absent store file and propagates the parse failure otherwise; the
catch block rethrows any message containing `missingStoreMark` unchanged
and wraps every other failure. -/
def getAllConfigsE (store : FileState) : Except String Json :=
  let body : Except String Json :=
    match store with
    | .missing => .error missingStoreMsg
    | .malformed m => .error m
    | .parsed j => .ok (compatPass j)
  match body with
  | .ok v => .ok v
  | .error e =>
    if includesJs e missingStoreMark then .error e
    else .error ("读取配置文件失败: " ++ e)

/-- `ConfigManager.getSettings`: an absent or malformed live settings file
degrades to the empty object. -/
def getSettingsE : FileState → Json
  | .missing => .obj []
  | .malformed _ => .obj []
  | .parsed j => j

/-- `ConfigManager.getClaudeConfigJson`: same degradation policy for the
second live document. -/
def getClaudeConfigJsonE : FileState → Json
  | .missing => .obj []
  | .malformed _ => .obj []
  | .parsed j => j

/-- The fixed env keys `switchConfig` deletes from the previous live
settings before merging (source lines 330–345). -/
def envDeleteKeys : List String :=
  ["ANTHROPIC_AUTH_TOKEN", "ANTHROPIC_AUTH_KEY", "ANTHROPIC_API_KEY",
   "ANTHROPIC_MODEL", "ANTHROPIC_BASE_URL", "ANTHROPIC_VERTEX_BASE_URL",
   "ANTHROPIC_VERTEX_PROJECT_ID", "CLAUDE_CODE_USE_VERTEX",
   "CLAUDE_CODE_SKIP_VERTEX_AUTH"]

/-- The `if (currentSettings.env) delete ...` block of `switchConfig`.
A falsy `env` skips the block; deleting these names on a truthy primitive
is a no-op in JavaScript, so only an object `env` changes. -/
def clearPrevEnv (settings : Fields) : Fields :=
  match lookup settings "env" with
  | some (.obj e) => setKey settings "env" (.obj (envDeleteKeys.foldl eraseKey e))
  | _ => settings

/-- The cleared previous settings: the env block above plus the
unconditional `delete currentSettings.model`. -/
def clearedSettings (settings : Fields) : Fields :=
  eraseKey (clearPrevEnv settings) "model"

/-- `configToMerge = {...claudeConfig}` followed by
`if (configToMerge.env && configToMerge.env.ANTHROPIC_AUTH_TOKEN)
configToMerge.env.ANTHROPIC_AUTH_TOKEN = token` — the value-level result
of the adjustment (the in-place aliasing effect on the caller's object is
modelled separately for the frame-effect claim). -/
def adjustFragment (claudeConfig : Fields) (token : String) : Fields :=
  match lookup claudeConfig "env" with
  | some (.obj e) =>
    if truthyOpt (lookup e "ANTHROPIC_AUTH_TOKEN") then
      setKey claudeConfig "env" (.obj (setKey e "ANTHROPIC_AUTH_TOKEN" (.str token)))
    else claudeConfig
  | _ => claudeConfig

/-- Token-display-name resolution in `switchConfig`: a string token map is
wrapped as `{默认Token: rawTokens}`, then the first own key whose value is
strictly equal (`===`) to the chosen token is taken. -/
def tokenNameFor (rawTokens : Json) (token : String) : Option String :=
  let tokens : Json :=
    match rawTokens with
    | .str s => .obj [("默认Token", .str s)]
    | other => other
  ((spreadToFields tokens).find? (fun p => p.2 == Json.str token)).map (·.1)

/-- The in-memory selection snapshot object `switchConfig` builds and
returns: `{site, siteName: site, ANTHROPIC_BASE_URL: ..., token,
tokenName}`.  `baseUrl` is the value of its `ANTHROPIC_BASE_URL` property
(`none` = `undefined`), `tokenName` likewise. -/
structure SwitchSnapshot where
  site : String
  siteName : String
  baseUrl : Option Json
  token : String
  tokenName : Option String
deriving DecidableEq

/-- The `currentConfig` document fragment persisted by
`saveCurrentConfig`: `{site, siteName, url, urlName, token, tokenName,
updatedAt}` read off the snapshot object, with `JSON.stringify` dropping
every `undefined`-valued key.  The snapshot has no `url`/`urlName`
properties, so those two keys are always dropped. -/
def persistedCurrentConfig (c : SwitchSnapshot) (now : String) : Fields :=
  [("site", .str c.site), ("siteName", .str c.siteName),
   ("token", .str c.token)]
  ++ (match c.tokenName with
      | some n => [("tokenName", .str n)]
      | none => [])
  ++ [("updatedAt", .str now)]

/-- The store written by `saveCurrentConfig`: the loaded store with
`currentConfig` overwritten, then `normalizeConfig` applied.  (The
timestamp is `new Date().toISOString()`, passed in as `now`.) -/
def saveCurrentConfigStore (allConfigs : Json) (c : SwitchSnapshot)
    (now : String) : Json :=
  match allConfigs with
  | .obj fs =>
    normalizeConfig (.obj (setKey fs "currentConfig"
      (.obj (persistedCurrentConfig c now))))
  | other => other

/-- Everything `switchConfig` computes and writes: the returned snapshot,
the `currentConfig` fragment persisted into the store, the whole saved
store, the merged live settings document, and the updated live config
document. -/
structure SwitchResult where
  snapshot : SwitchSnapshot
  persistedCurrent : Fields
  savedStore : Json
  mergedSettings : Fields
  configJsonOut : Fields
deriving DecidableEq

/-- `ConfigManager.switchConfig(site, token, siteConfig)` as a pure
transaction.  `allConfigs` is the parsed store read inside
`saveCurrentConfig`, `prevSettings`/`prevConfigJson` are the two parsed
live documents (objects per the data model), `now` the write timestamp.
A `TypeError` raised by property access on `undefined`/`null` (absent
`env`, absent or null `env.ANTHROPIC_AUTH_TOKEN`) is caught by the
function's `catch` and surfaces as a wrapped error, as in the source. -/
def switchConfigE (site token : String) (siteConfig : Json)
    (allConfigs : Json) (prevSettings prevConfigJson : Fields)
    (now : String) : Except String SwitchResult :=
  let body : Except String SwitchResult :=
    match getClaudeConfigE siteConfig with
    | .error e => .error e
    | .ok claudeConfig =>
      match claudeConfig with
      | .obj cf =>
        match lookup cf "env" with
        | none => .error "TypeError"
        | some .null => .error "TypeError"
        | some envVal =>
          match getField envVal "ANTHROPIC_AUTH_TOKEN" with
          | none => .error "TypeError"
          | some .null => .error "TypeError"
          | some rawTokens =>
            let snap : SwitchSnapshot :=
              { site := site, siteName := site,
                baseUrl := getField envVal "ANTHROPIC_BASE_URL",
                token := token,
                tokenName := tokenNameFor rawTokens token }
            let cj1 :=
              if truthyOpt (lookup prevConfigJson "primaryApiKey") then
                eraseKey prevConfigJson "primaryApiKey"
              else prevConfigJson
            .ok { snapshot := snap,
                  persistedCurrent := persistedCurrentConfig snap now,
                  savedStore := saveCurrentConfigStore allConfigs snap now,
                  mergedSettings :=
                    deepMergeF (clearedSettings prevSettings)
                      (adjustFragment cf token),
                  configJsonOut := setKey cj1 "primaryApiKey" (.str site) }
      | _ => .error "TypeError"
  match body with
  | .ok r => .ok r
  | .error e => .error ("切换配置失败: " ++ e)

/-! ## Notification hook manager (`src/utils/notification-manager.js`)

The hook predicates walk untrusted JSON, so property access on `null` and
method calls on non-arrays/non-strings can raise `TypeError`; those
exceptions are modelled with `Except Unit` and caught exactly where the
source catches them. -/

/-- Property access `j[k]` with the JavaScript exception on a `null`
receiver. -/
def getFieldE (j : Json) (k : String) : Except Unit (Option Json) :=
  match j with
  | .null => .error ()
  | .obj fs => .ok (lookup fs k)
  | _ => .ok none

/-- `Array.prototype.some` with exception propagation and left-to-right
short-circuit. -/
def anyE (f : Json → Except Unit Bool) : List Json → Except Unit Bool
  | [] => .ok false
  | x :: xs =>
    match f x with
    | .error e => .error e
    | .ok true => .ok true
    | .ok false => anyE f xs

/-- `c?.includes(m)` on an optional property value: an absent/null value
short-circuits to `undefined` (falsy); strings test for a substring;
arrays test membership of the string `m` (`SameValueZero`); any other
receiver raises. -/
def includesPropE (c : Option Json) (m : String) : Except Unit Bool :=
  match c with
  | none => .ok false
  | some .null => .ok false
  | some (.str s) => .ok (includesJs s m)
  | some (.arr es) => .ok (es.contains (Json.str m))
  | some _ => .error ()

/-- The notifier invocation marker `'cc notify-hook'`. -/
def notifyMark : String := "cc notify-hook"

/-- The inner predicate of `checkNotificationStatus` and of
`removeNotificationHooks`:
`h.type === 'command' && h.command?.includes('cc notify-hook')`. -/
def checkHookEntry (h : Json) : Except Unit Bool :=
  match getFieldE h "type" with
  | .error e => .error e
  | .ok t =>
    if t == some (Json.str "command") then
      match getFieldE h "command" with
      | .error e => .error e
      | .ok c => includesPropE c notifyMark
    else .ok false

/-- The hook-group predicate `hook => hook.hooks?.some(h => ...)` shared
by `checkNotificationStatus` and `removeNotificationHooks`. -/
def checkHookGroup (hook : Json) : Except Unit Bool :=
  match getFieldE hook "hooks" with
  | .error e => .error e
  | .ok none => .ok false
  | .ok (some .null) => .ok false
  | .ok (some (.arr hs)) => anyE checkHookEntry hs
  | .ok (some _) => .error ()

/-- `settings.hooks?.[evt]?.some(hook => ...)` from
`checkNotificationStatus`; an `undefined` result of the optional chain is
falsy. -/
def evalHasHook (settings : Json) (evt : String) : Except Unit Bool :=
  match getFieldE settings "hooks" with
  | .error e => .error e
  | .ok none => .ok false
  | .ok (some .null) => .ok false
  | .ok (some hv) =>
    match getFieldE hv evt with
    | .error e => .error e
    | .ok none => .ok false
    | .ok (some .null) => .ok false
    | .ok (some (.arr groups)) => anyE checkHookGroup groups
    | .ok (some _) => .error ()

/-- `NotificationManager.checkNotificationStatus` on a parsed settings
document: both the `Stop` and `Notification` scans must answer true; any
raised `TypeError` is swallowed by the surrounding `catch` as `false`. -/
def checkStatusDoc (settings : Json) : Bool :=
  match evalHasHook settings "Stop" with
  | .error _ => false
  | .ok a =>
    match evalHasHook settings "Notification" with
    | .error _ => false
    | .ok b => a && b

/-- `checkNotificationStatus` at file level: an absent or unparseable
settings file reads as "not enabled". -/
def checkNotificationStatusE : FileState → Bool
  | .missing => false
  | .malformed _ => false
  | .parsed j => checkStatusDoc j

/-- The duplicate-insertion guard of `addNotificationHooks`
(`hook.hooks?.some(h => h.command?.includes(marker))` — note: no `type`
check, and the marker carries the event suffix). -/
def addCheckGroup (marker : String) (hook : Json) : Except Unit Bool :=
  match getFieldE hook "hooks" with
  | .error e => .error e
  | .ok none => .ok false
  | .ok (some .null) => .ok false
  | .ok (some (.arr hs)) =>
    anyE (fun h =>
      match getFieldE h "command" with
      | .error e => .error e
      | .ok c => includesPropE c marker) hs
  | .ok (some _) => .error ()

/-- The hook-group entry `addNotificationHooks` pushes onto `hooks.Stop`. -/
def stopHookEntry : Json :=
  .obj [("hooks", .arr [.obj [("type", .str "command"),
    ("command", .str "cc notify-hook stop")]])]

/-- The hook-group entry pushed onto `hooks.Notification`. -/
def notificationHookEntry : Json :=
  .obj [("hooks", .arr [.obj [("type", .str "command"),
    ("command", .str "cc notify-hook notification")]])]

/-- One event block of `addNotificationHooks`: create the list if falsy,
then push the entry unless a matching one is already present.  A truthy
non-array list makes `.some` raise. -/
def addEventHook (h : Fields) (evt marker : String) (entry : Json) :
    Except Unit Fields :=
  let h1 := if truthyOpt (lookup h evt) then h else setKey h evt (.arr [])
  match lookup h1 evt with
  | some (.arr es) =>
    match anyE (addCheckGroup marker) es with
    | .error e => .error e
    | .ok true => .ok h1
    | .ok false => .ok (setKey h1 evt (.arr (es ++ [entry])))
  | _ => .error ()

/-- `NotificationManager.addNotificationHooks` on a parsed settings
object: ensure `hooks`, then insert the `Stop` and `Notification`
entries.  (Assignment to a property of a truthy primitive `hooks` value
raises in strict mode.) -/
def addHooksE (s : Fields) : Except Unit Fields :=
  let s1 := if truthyOpt (lookup s "hooks") then s else setKey s "hooks" (.obj [])
  match lookup s1 "hooks" with
  | some (.obj h) =>
    match addEventHook h "Stop" "cc notify-hook stop" stopHookEntry with
    | .error e => .error e
    | .ok h1 =>
      match addEventHook h1 "Notification" "cc notify-hook notification"
          notificationHookEntry with
      | .error e => .error e
      | .ok h2 => .ok (setKey s1 "hooks" (.obj h2))
  | _ => .error ()

/-- `Array.prototype.filter` keeping the entries on which the
`removeNotificationHooks` predicate is false, with exception
propagation. -/
def filterKeepE (f : Json → Except Unit Bool) : List Json → Except Unit (List Json)
  | [] => .ok []
  | x :: xs =>
    match f x with
    | .error e => .error e
    | .ok b =>
      match filterKeepE f xs with
      | .error e => .error e
      | .ok ys => .ok (if b then ys else x :: ys)

/-- One event block of `removeNotificationHooks`: filter out matching
hook groups and delete the event key when the list empties. -/
def removeEventHooks (h : Fields) (evt : String) : Except Unit Fields :=
  match lookup h evt with
  | some (.arr es) =>
    match filterKeepE checkHookGroup es with
    | .error e => .error e
    | .ok es' =>
      .ok (if es'.length = 0 then eraseKey h evt else setKey h evt (.arr es'))
  | some v => if v.truthy then .error () else .ok h
  | none => .ok h

/-- `Object.keys(x).length` for a non-null value. -/
def jsOwnKeyCount : Json → Nat
  | .obj fs => fs.length
  | .arr es => es.length
  | .str s => s.length
  | _ => 0

/-- `NotificationManager.removeNotificationHooks` on a parsed settings
object: filter both event lists, then delete a `hooks` object that ended
up empty. -/
def removeHooksE (s : Fields) : Except Unit Fields :=
  match lookup s "hooks" with
  | some (.obj h) =>
    match removeEventHooks h "Stop" with
    | .error e => .error e
    | .ok h1 =>
      match removeEventHooks h1 "Notification" with
      | .error e => .error e
      | .ok h2 =>
        .ok (if h2.length = 0 then eraseKey s "hooks" else setKey s "hooks" (.obj h2))
  | some v => .ok (if v.truthy && jsOwnKeyCount v = 0 then eraseKey s "hooks" else s)
  | none => .ok s

/-! ## Reference semantics of the fragment adjustment (claim about
in-place mutation)

`switchConfig` copies the effective fragment with a shallow spread, so the
copy's `env` property still points at the caller's `env` object; the token
overwrite then writes through that shared reference.  The heap below holds
the `env` objects; a fragment holds a reference into it. -/

/-- The mutable store of `env` objects. -/
structure EnvHeap where
  envAt : Nat → Fields

/-- A fragment object, holding its `env` property as a reference. -/
structure FragmentObj where
  envRef : Nat

/-- `{...claudeConfig}`: the new object's `env` property is the same
reference. -/
def sharedCopy (f : FragmentObj) : FragmentObj := ⟨f.envRef⟩

/-- Lines 349–355 of the source with reference semantics: shallow-copy the
fragment, then, when the shared `env` object has a truthy
`ANTHROPIC_AUTH_TOKEN`, overwrite that property through the reference. -/
def applyTokenOverwrite (h : EnvHeap) (frag : FragmentObj) (token : String) :
    EnvHeap × FragmentObj :=
  let copy := sharedCopy frag
  let e := h.envAt copy.envRef
  if truthyOpt (lookup e "ANTHROPIC_AUTH_TOKEN") then
    ({ envAt := fun r =>
        if r = copy.envRef then setKey e "ANTHROPIC_AUTH_TOKEN" (.str token)
        else h.envAt r },
     copy)
  else (h, copy)

/-- The env entry of a settings object, as an object. -/
def envLookup (s : Fields) (k : String) : Option Json :=
  match lookup s "env" with
  | some (.obj e) => lookup e k
  | _ => none

theorem lookup_foldl_eraseKey (ks : List String) :
    ∀ (fs : Fields) (k : String),
      lookup (ks.foldl eraseKey fs) k =
        if k ∈ ks then none else lookup fs k := by
  induction ks with
  | nil => intro fs k; simp
  | cons k₀ rest ih =>
    intro fs k
    simp only [List.foldl_cons, ih]
    by_cases hk : k ∈ rest
    · simp [hk]
    · by_cases hk0 : k = k₀
      · subst hk0
        simp [hk, lookup_eraseKey_self]
      · simp [hk, hk0, lookup_eraseKey_ne _ _ _ hk0]

theorem keys_setKey (fs : Fields) (k : String) (v : Json) :
    (setKey fs k v).map Prod.fst =
      if k ∈ fs.map Prod.fst then fs.map Prod.fst
      else fs.map Prod.fst ++ [k] := by
  induction fs with
  | nil => simp [setKey]
  | cons p rest ih =>
    by_cases hp : p.1 = k
    · simp [setKey, hp]
    · simp only [setKey, hp, if_false, List.map_cons, ih]
      by_cases hmem : k ∈ rest.map Prod.fst
      · simp [hmem, Ne.symm hp]
      · simp [hmem, Ne.symm hp]

theorem nodup_keys_setKey (fs : Fields) (k : String) (v : Json)
    (h : (fs.map Prod.fst).Nodup) :
    ((setKey fs k v).map Prod.fst).Nodup := by
  rw [keys_setKey]
  by_cases hmem : k ∈ fs.map Prod.fst
  · simpa [hmem] using h
  · simp only [hmem, if_false]
    rw [List.nodup_append]
    exact ⟨h, List.nodup_singleton k,
      fun a ha hak => hmem (by simpa [List.mem_singleton.mp hak] using ha)⟩

/-! ## Theorems for the specification claims -/

instance {ε α : Type} [DecidableEq ε] [DecidableEq α] :
    DecidableEq (Except ε α) := fun a b =>
  match a, b with
  | .ok x, .ok y => decidable_of_iff (x = y) (by simp)
  | .error e, .error f => decidable_of_iff (e = f) (by simp)
  | .ok _, .error _ => isFalse (by simp)
  | .error _, .ok _ => isFalse (by simp)

/-- **C4** — `deepMerge(destination, source)`: every key whose source value
is a non-null, non-array object is merged recursively with the
destination's value there (an absent destination value acting as the empty
mapping); every key whose source value is a scalar, array or null takes
the source value outright; every key only in the destination keeps its
destination value. -/
theorem c4_deepMerge_pointwise (dst src : Fields) (k : String)
    (hnd : (src.map Prod.fst).Nodup) :
    (∀ o : Fields, lookup src k = some (.obj o) →
      (lookup dst k = none →
        lookup (deepMergeF dst src) k = some (.obj (deepMergeF [] o))) ∧
      (∀ d : Fields, lookup dst k = some (.obj d) →
        lookup (deepMergeF dst src) k = some (.obj (deepMergeF d o)))) ∧
    (∀ v : Json, lookup src k = some v → (∀ o : Fields, v ≠ .obj o) →
      lookup (deepMergeF dst src) k = some v) ∧
    (lookup src k = none → lookup (deepMergeF dst src) k = lookup dst k) := by
  refine ⟨?_, ?_, ?_⟩
  · intro o hsrc
    have hbase := deepMergeF_lookup_of_src k (.obj o) src dst hnd hsrc
    constructor
    · intro habs
      rwa [show mergeStep dst k (.obj o) = .obj (deepMergeF [] o) by
        simp [mergeStep, mergeDest, habs]] at hbase
    · intro d hd
      rwa [show mergeStep dst k (.obj o) = .obj (deepMergeF d o) by
        simp [mergeStep, mergeDest, hd, Json.truthy, spreadToFields]] at hbase
  · intro v hsrc hno
    have hbase := deepMergeF_lookup_of_src k v src dst hnd hsrc
    rwa [show mergeStep dst k v = v by
      cases v with
      | obj o => exact absurd rfl (hno o)
      | null => rfl
      | bool b => rfl
      | num n => rfl
      | str s => rfl
      | arr es => rfl] at hbase
  · exact deepMergeF_lookup_notin k src dst

/-- Witness for C4 at the spec's own example
(`{a:{x:9,z:5}}` merged with source `{a:{x:1,y:2}}`). -/
theorem c4_deepMerge_pointwise_witness :
    lookup (deepMergeF [("a", .obj [("x", .num 9), ("z", .num 5)])]
        [("a", .obj [("x", .num 1), ("y", .num 2)])]) "a" =
      some (.obj (deepMergeF [("x", .num 9), ("z", .num 5)]
        [("x", .num 1), ("y", .num 2)])) ∧
    deepMergeF [("x", .num 9), ("z", .num 5)] [("x", .num 1), ("y", .num 2)] =
      [("x", .num 1), ("z", .num 5), ("y", .num 2)] :=
  ⟨((c4_deepMerge_pointwise _ _ "a" (by decide)).1 _ (by decide)).2 _ (by decide),
   by decide⟩

/-- **C10** — the fragment is only shallow-copied, so the token overwrite
writes through the shared `env` object: after the adjustment step the
caller's own fragment reads back the chosen token, and its original
(possibly multi-token) value is gone. -/
theorem c10_switch_mutates_caller_env (h : EnvHeap) (frag : FragmentObj)
    (token : String) (v : Json)
    (hv : lookup (h.envAt frag.envRef) "ANTHROPIC_AUTH_TOKEN" = some v)
    (htr : v.truthy = true) :
    (applyTokenOverwrite h frag token).2.envRef = frag.envRef ∧
    lookup ((applyTokenOverwrite h frag token).1.envAt frag.envRef)
        "ANTHROPIC_AUTH_TOKEN" = some (.str token) ∧
    (v ≠ .str token →
      lookup ((applyTokenOverwrite h frag token).1.envAt frag.envRef)
        "ANTHROPIC_AUTH_TOKEN" ≠ some v) := by
  have hcopy : (applyTokenOverwrite h frag token).2.envRef = frag.envRef := by
    simp [applyTokenOverwrite, sharedCopy, truthyOpt, hv, htr]
  have hmut : lookup ((applyTokenOverwrite h frag token).1.envAt frag.envRef)
      "ANTHROPIC_AUTH_TOKEN" = some (.str token) := by
    simp [applyTokenOverwrite, sharedCopy, truthyOpt, hv, htr,
      lookup_setKey_self]
  refine ⟨hcopy, hmut, ?_⟩
  intro hne heq
  rw [hmut] at heq
  exact hne (Option.some.injEq _ _ ▸ heq.symm)

/-- Witness for C10: a two-token mapping is overwritten in the caller's
fragment. -/
theorem c10_switch_mutates_caller_env_witness :
    lookup ((applyTokenOverwrite
        ⟨fun _ => [("ANTHROPIC_AUTH_TOKEN",
          .obj [("Primary", .str "sk-abc"), ("Backup", .str "sk-def")])]⟩
        ⟨0⟩ "sk-def").1.envAt 0) "ANTHROPIC_AUTH_TOKEN" =
      some (.str "sk-def") :=
  (c10_switch_mutates_caller_env
    ⟨fun _ => [("ANTHROPIC_AUTH_TOKEN",
      .obj [("Primary", .str "sk-abc"), ("Backup", .str "sk-def")])]⟩
    ⟨0⟩ "sk-def"
    (.obj [("Primary", .str "sk-abc"), ("Backup", .str "sk-def")])
    (by decide) (by decide)).2.1

/-- **C8** — `getAllConfigs` raises the dedicated store-file-missing error
unwrapped exactly for an absent store, wraps every other load failure
(such as a `JSON.parse` failure) as a read error distinct from the missing
error, and succeeds on a parsed store; `getSettings` and
`getClaudeConfigJson` return the empty object for an absent or malformed
live document. -/
theorem c8_load_error_policy :
    getAllConfigsE .missing = .error missingStoreMsg ∧
    includesJs missingStoreMsg missingStoreMark = true ∧
    (∀ m : String, includesJs m missingStoreMark = false →
      getAllConfigsE (.malformed m) = .error ("读取配置文件失败: " ++ m) ∧
      "读取配置文件失败: " ++ m ≠ missingStoreMsg) ∧
    (∀ j : Json, getAllConfigsE (.parsed j) = .ok (compatPass j)) ∧
    getSettingsE .missing = .obj [] ∧
    getClaudeConfigJsonE .missing = .obj [] ∧
    (∀ m : String, getSettingsE (.malformed m) = .obj [] ∧
      getClaudeConfigJsonE (.malformed m) = .obj []) := by
  refine ⟨by decide, by decide, ?_, fun j => rfl, rfl, rfl, fun m => ⟨rfl, rfl⟩⟩
  intro m hm
  constructor
  · simp [getAllConfigsE, hm]
  · intro h
    have h2 : ("读取配置文件失败: " ++ m).data = missingStoreMsg.data :=
      congrArg String.data h
    rw [String.data_append] at h2
    have h3 := congrArg List.head? h2
    simp [missingStoreMsg] at h3

/-- Witness for C8 at a realistic `JSON.parse` failure message. -/
theorem c8_load_error_policy_witness :
    getAllConfigsE (.malformed "Unexpected end of JSON input") =
      .error ("读取配置文件失败: " ++ "Unexpected end of JSON input") :=
  (c8_load_error_policy.2.2.1 "Unexpected end of JSON input"
    (by decide)).1

/-- **C1 (counterexample)** — the claim says the read-time pass copies a
legacy `config` fragment forward into `claude`; the code does the
opposite (it fills `config` from `claude`).  A store whose only site
carries just a `config` fragment is returned by `getAllConfigs`
completely unchanged, still without a `claude` field. -/
theorem c1_counterexample :
    getAllConfigsE (.parsed (.obj [("sites", .obj [("a",
        .obj [("config", .obj [("env", .obj [])])])])])) =
      .ok (.obj [("sites", .obj [("a",
        .obj [("config", .obj [("env", .obj [])])])])]) ∧
    getField (.obj [("config", .obj [("env", .obj [])])]) "config" ≠ none ∧
    getField (.obj [("config", .obj [("env", .obj [])])]) "claude" = none := by
  decide

/-- **C1 (amended)** — the read-time compatibility pass of `getAllConfigs`
copies each Site Entry's `claude` fragment into `config` when `config` is
absent, never deletes on read (it preserves `claude` always and any truthy
`config`), so after load every Site Entry that had an object-valued
`claude` or `config` fragment has a `config` field. -/
theorem c1_compat_pass_fills_config (fs sites : Fields)
    (hs : lookup fs "sites" = some (.obj sites)) :
    getAllConfigsE (.parsed (.obj fs)) =
      .ok (.obj (setKey fs "sites"
        (.obj (sites.map (fun p => (p.1, compatSite p.2)))))) ∧
    (∀ (sf c : Fields),
      lookup sf "claude" = some (.obj c) → lookup sf "config" = none →
      compatSite (.obj sf) = .obj (setKey sf "config" (.obj c))) ∧
    (∀ sf : Fields,
      getField (compatSite (.obj sf)) "claude" = lookup sf "claude") ∧
    (∀ (sf : Fields) (v : Json),
      lookup sf "config" = some v → v.truthy = true →
      getField (compatSite (.obj sf)) "config" = some v) ∧
    (∀ (sf c : Fields),
      (lookup sf "claude" = some (.obj c) ∨ lookup sf "config" = some (.obj c)) →
      getField (compatSite (.obj sf)) "config" ≠ none) := by
  refine ⟨?_, ?_, ?_, ?_, ?_⟩
  · simp [getAllConfigsE, compatPass, hs]
  · intro sf c hcl hcf
    simp [compatSite, truthyField, getField, hcl, hcf, truthyOpt, Json.truthy]
  · intro sf
    unfold compatSite
    cases htf : truthyField (.obj sf) "claude" with
    | none => simp [htf, getField]
    | some c =>
      simp only [htf]
      by_cases hcf : truthyOpt (lookup sf "config") = true
      · simp [hcf, getField]
      · simp [hcf, getField,
          lookup_setKey_ne _ _ _ _ (show "claude" ≠ "config" by decide)]
  · intro sf v hcf htr
    unfold compatSite
    cases htf : truthyField (.obj sf) "claude" with
    | none => simp [htf, getField, hcf]
    | some c =>
      have ht : truthyOpt (lookup sf "config") = true := by
        simp [hcf, truthyOpt, htr]
      simp [htf, ht, getField, hcf, truthyOpt, htr]
  · intro sf c hor
    unfold compatSite
    rcases hor with hcl | hcf
    · have htf : truthyField (.obj sf) "claude" = some (.obj c) := by
        simp [truthyField, getField, hcl, Json.truthy]
      simp only [htf]
      by_cases hcf2 : truthyOpt (lookup sf "config") = true
      · cases hlc : lookup sf "config" with
        | none => rw [hlc] at hcf2; simp [truthyOpt] at hcf2
        | some w => rw [hlc] at hcf2; simp [hcf2, getField, hlc]
      · simp [hcf2, getField, lookup_setKey_self]
    · have ht : truthyOpt (lookup sf "config") = true := by
        simp [hcf, truthyOpt, Json.truthy]
      cases htf : truthyField (.obj sf) "claude" with
      | none => simp [htf, getField, hcf]
      | some w => simp [htf, ht, getField, hcf, truthyOpt, Json.truthy]

theorem setKey_setKey (fs : Fields) (k : String) (v w : Json) :
    setKey (setKey fs k v) k w = setKey fs k w := by
  induction fs with
  | nil => simp [setKey]
  | cons p rest ih =>
    by_cases hp : p.1 = k
    · simp [setKey, hp]
    · simp [setKey, hp, ih]

theorem normalizeSite_idem (s : Json) :
    normalizeSite (normalizeSite s) = normalizeSite s := by
  cases s with
  | obj sf =>
    cases hcf : lookup sf "config" with
    | none =>
      have h1 : normalizeSite (.obj sf) = .obj sf := by
        unfold normalizeSite; simp [hcf]
      rw [h1, h1]
    | some g =>
      by_cases hg : g.truthy = true
      · cases hclv : lookup sf "claude" with
        | none =>
          have h1 : normalizeSite (.obj sf) =
              .obj (eraseKey (setKey sf "claude" g) "config") := by
            unfold normalizeSite; simp [hcf, hg, hclv, truthyOpt]
          rw [h1]
          unfold normalizeSite
          simp [lookup_eraseKey_self]
        | some cl =>
          by_cases hct : cl.truthy = true
          · by_cases heq : cl = g
            · have h1 : normalizeSite (.obj sf) = .obj (eraseKey sf "config") := by
                unfold normalizeSite; simp [hcf, hg, hclv, hct, heq, truthyOpt]
              rw [h1]
              unfold normalizeSite
              simp [lookup_eraseKey_self]
            · have h1 : normalizeSite (.obj sf) = .obj sf := by
                unfold normalizeSite; simp [hcf, hg, hclv, hct, heq, truthyOpt]
              rw [h1, h1]
          · have h1 : normalizeSite (.obj sf) =
                .obj (eraseKey (setKey sf "claude" g) "config") := by
              unfold normalizeSite; simp [hcf, hg, hclv, hct, truthyOpt]
            rw [h1]
            unfold normalizeSite
            simp [lookup_eraseKey_self]
      · have h1 : normalizeSite (.obj sf) = .obj sf := by
          unfold normalizeSite; simp [hcf, hg]
        rw [h1, h1]
  | null => rfl
  | bool b => rfl
  | num n => rfl
  | str s => rfl
  | arr es => rfl

/-- **C5** — `normalizeConfig` renames a lone object-valued `config`
fragment to `claude`, drops a `config` that is serialization-identical to
`claude`, leaves claude-only entries and entries with differing fragments
unchanged, and is idempotent on every store. -/
theorem c5_normalize_behavior :
    (∀ (sf g : Fields), lookup sf "config" = some (.obj g) →
      lookup sf "claude" = none →
      normalizeSite (.obj sf) =
        .obj (eraseKey (setKey sf "claude" (.obj g)) "config")) ∧
    (∀ (sf c : Fields), lookup sf "claude" = some (.obj c) →
      lookup sf "config" = some (.obj c) →
      normalizeSite (.obj sf) = .obj (eraseKey sf "config")) ∧
    (∀ (sf : Fields) (c : Json), lookup sf "claude" = some c →
      lookup sf "config" = none → normalizeSite (.obj sf) = .obj sf) ∧
    (∀ (sf c g : Fields), lookup sf "claude" = some (.obj c) →
      lookup sf "config" = some (.obj g) → Json.obj c ≠ .obj g →
      normalizeSite (.obj sf) = .obj sf) ∧
    (∀ (fs sites : Fields), lookup fs "sites" = some (.obj sites) →
      normalizeConfig (.obj fs) = .obj (setKey fs "sites"
        (.obj (sites.map (fun p => (p.1, normalizeSite p.2)))))) ∧
    (∀ store : Json,
      normalizeConfig (normalizeConfig store) = normalizeConfig store) := by
  refine ⟨?_, ?_, ?_, ?_, ?_, ?_⟩
  · intro sf g hcf hcl
    unfold normalizeSite
    simp [hcf, hcl, truthyOpt, Json.truthy]
  · intro sf c hcl hcf
    unfold normalizeSite
    simp [hcf, hcl, truthyOpt, Json.truthy]
  · intro sf c hcl hcf
    unfold normalizeSite
    simp [hcf]
  · intro sf c g hcl hcf hne
    unfold normalizeSite
    simp [hcf, hcl, truthyOpt, Json.truthy, hne]
  · intro fs sites hs
    unfold normalizeConfig
    simp [hs]
  · intro store
    cases store with
    | obj fs =>
      cases hs : lookup fs "sites" with
      | none =>
        have h1 : normalizeConfig (.obj fs) = .obj fs := by
          unfold normalizeConfig; simp [hs]
        rw [h1, h1]
      | some sv =>
        cases sv with
        | obj sites =>
          have h1 : normalizeConfig (.obj fs) = .obj (setKey fs "sites"
              (.obj (sites.map (fun p => (p.1, normalizeSite p.2))))) := by
            unfold normalizeConfig; simp [hs]
          have hmm : (sites.map (fun p => (p.1, normalizeSite p.2))).map
              (fun p => (p.1, normalizeSite p.2)) =
              sites.map (fun p => (p.1, normalizeSite p.2)) := by
            rw [List.map_map]
            refine List.map_congr_left (fun a _ => ?_)
            simp [Function.comp, normalizeSite_idem]
          have h2 : normalizeConfig (.obj (setKey fs "sites"
              (.obj (sites.map (fun p => (p.1, normalizeSite p.2)))))) =
              .obj (setKey (setKey fs "sites"
                (.obj (sites.map (fun p => (p.1, normalizeSite p.2))))) "sites"
                (.obj ((sites.map (fun p => (p.1, normalizeSite p.2))).map
                  (fun p => (p.1, normalizeSite p.2))))) := by
            unfold normalizeConfig; simp [lookup_setKey_self]
          rw [h1, h2, hmm, setKey_setKey]
        | null =>
          have h1 : normalizeConfig (.obj fs) = .obj fs := by
            unfold normalizeConfig; simp [hs]
          rw [h1, h1]
        | bool b =>
          have h1 : normalizeConfig (.obj fs) = .obj fs := by
            unfold normalizeConfig; simp [hs]
          rw [h1, h1]
        | num n =>
          have h1 : normalizeConfig (.obj fs) = .obj fs := by
            unfold normalizeConfig; simp [hs]
          rw [h1, h1]
        | str s =>
          have h1 : normalizeConfig (.obj fs) = .obj fs := by
            unfold normalizeConfig; simp [hs]
          rw [h1, h1]
        | arr es =>
          have h1 : normalizeConfig (.obj fs) = .obj fs := by
            unfold normalizeConfig; simp [hs]
          rw [h1, h1]
    | null => rfl
    | bool b => rfl
    | num n => rfl
    | str s => rfl
    | arr es => rfl

/-- Witness for C5: a config-only entry migrates to `claude`. -/
theorem c5_normalize_behavior_witness :
    normalizeSite (.obj [("url", .str "u"), ("config", .obj [("env", .obj [])])]) =
      .obj (eraseKey (setKey [("url", .str "u"),
        ("config", .obj [("env", .obj [])])] "claude"
        (.obj [("env", .obj [])])) "config") :=
  c5_normalize_behavior.1 _ _ (by decide) (by decide)

theorem switchConfigE_ok (site token : String) (siteConfig allConfigs : Json)
    (prevSettings prevConfigJson : Fields) (now : String)
    (cf e : Fields) (rawTokens : Json)
    (hcf : getClaudeConfigE siteConfig = .ok (.obj cf))
    (henv : lookup cf "env" = some (.obj e))
    (hraw : lookup e "ANTHROPIC_AUTH_TOKEN" = some rawTokens)
    (hrnn : rawTokens ≠ .null) :
    switchConfigE site token siteConfig allConfigs prevSettings
        prevConfigJson now =
      .ok { snapshot :=
              { site := site, siteName := site,
                baseUrl := lookup e "ANTHROPIC_BASE_URL",
                token := token,
                tokenName := tokenNameFor rawTokens token },
            persistedCurrent :=
              persistedCurrentConfig
                { site := site, siteName := site,
                  baseUrl := lookup e "ANTHROPIC_BASE_URL",
                  token := token,
                  tokenName := tokenNameFor rawTokens token } now,
            savedStore :=
              saveCurrentConfigStore allConfigs
                { site := site, siteName := site,
                  baseUrl := lookup e "ANTHROPIC_BASE_URL",
                  token := token,
                  tokenName := tokenNameFor rawTokens token } now,
            mergedSettings :=
              deepMergeF (clearedSettings prevSettings)
                (adjustFragment cf token),
            configJsonOut :=
              setKey
                (if truthyOpt (lookup prevConfigJson "primaryApiKey") then
                  eraseKey prevConfigJson "primaryApiKey"
                else prevConfigJson) "primaryApiKey" (.str site) } := by
  cases rawTokens with
  | null => exact absurd rfl hrnn
  | bool b => unfold switchConfigE; simp only [hcf, henv, getField, hraw]
  | num n => unfold switchConfigE; simp only [hcf, henv, getField, hraw]
  | str s => unfold switchConfigE; simp only [hcf, henv, getField, hraw]
  | arr es => unfold switchConfigE; simp only [hcf, henv, getField, hraw]
  | obj o => unfold switchConfigE; simp only [hcf, henv, getField, hraw]

/-- **C7** — a successful switch deletes the fixed env-key set and the
top-level `model` before merging: every fixed env key absent from the new
fragment's env is absent from the merged settings, `model` absent from the
fragment stays absent, env keys outside the set and not set by the
fragment keep their previous values, other top-level keys not in the
fragment are untouched, and in particular switching to a fragment with
only `ANTHROPIC_BASE_URL` leaves `ANTHROPIC_VERTEX_BASE_URL` absent and
`ANTHROPIC_BASE_URL` present. -/
theorem c7_switch_clears_stale_keys (site token : String)
    (siteConfig allConfigs : Json) (prevSettings prevConfigJson : Fields)
    (now : String) (r : SwitchResult) (cf e : Fields) (rawTokens : Json)
    (hcf : getClaudeConfigE siteConfig = .ok (.obj cf))
    (henv : lookup cf "env" = some (.obj e))
    (hraw : lookup e "ANTHROPIC_AUTH_TOKEN" = some rawTokens)
    (hrnn : rawTokens ≠ .null)
    (hprevenv : lookup prevSettings "env" = none ∨
      ∃ pe : Fields, lookup prevSettings "env" = some (.obj pe))
    (hndcf : (cf.map Prod.fst).Nodup) (hnde : (e.map Prod.fst).Nodup)
    (hrun : switchConfigE site token siteConfig allConfigs prevSettings
      prevConfigJson now = .ok r) :
    (∀ k ∈ envDeleteKeys, lookup e k = none →
      envLookup r.mergedSettings k = none) ∧
    (lookup cf "model" = none → lookup r.mergedSettings "model" = none) ∧
    (∀ k, k ∉ envDeleteKeys → lookup e k = none →
      envLookup r.mergedSettings k = envLookup prevSettings k) ∧
    (∀ t, t ≠ "model" → t ≠ "env" → lookup cf t = none →
      lookup r.mergedSettings t = lookup prevSettings t) ∧
    (∀ u, lookup e "ANTHROPIC_BASE_URL" = some u →
      lookup e "ANTHROPIC_VERTEX_BASE_URL" = none →
      envLookup r.mergedSettings "ANTHROPIC_VERTEX_BASE_URL" = none ∧
      envLookup r.mergedSettings "ANTHROPIC_BASE_URL" ≠ none) := by
  have hme : r.mergedSettings =
      deepMergeF (clearedSettings prevSettings) (adjustFragment cf token) := by
    rw [switchConfigE_ok site token siteConfig allConfigs prevSettings
      prevConfigJson now cf e rawTokens hcf henv hraw hrnn] at hrun
    exact (congrArg SwitchResult.mergedSettings (Except.ok.inj hrun)).symm
  set eAdj : Fields :=
    if truthyOpt (lookup e "ANTHROPIC_AUTH_TOKEN") = true then
      setKey e "ANTHROPIC_AUTH_TOKEN" (.str token)
    else e with heAdjDef
  have hAenv : lookup (adjustFragment cf token) "env" = some (.obj eAdj) := by
    unfold adjustFragment
    rw [henv]
    by_cases ht : truthyOpt (lookup e "ANTHROPIC_AUTH_TOKEN") = true
    · simp [ht, lookup_setKey_self, heAdjDef]
    · simp [ht, henv, heAdjDef]
  have hAne : ∀ t, t ≠ "env" →
      lookup (adjustFragment cf token) t = lookup cf t := by
    intro t ht
    unfold adjustFragment
    rw [henv]
    by_cases h : truthyOpt (lookup e "ANTHROPIC_AUTH_TOKEN") = true <;>
      simp [h, lookup_setKey_ne _ _ _ _ ht]
  have heAdjNe : ∀ k, k ≠ "ANTHROPIC_AUTH_TOKEN" → lookup eAdj k = lookup e k := by
    intro k hk
    rw [heAdjDef]
    by_cases h : truthyOpt (lookup e "ANTHROPIC_AUTH_TOKEN") = true <;>
      simp [h, lookup_setKey_ne _ _ _ _ hk]
  have hndeAdj : (eAdj.map Prod.fst).Nodup := by
    rw [heAdjDef]
    by_cases h : truthyOpt (lookup e "ANTHROPIC_AUTH_TOKEN") = true <;>
      simp [h, nodup_keys_setKey _ _ _ hnde, hnde]
  have hndA : ((adjustFragment cf token).map Prod.fst).Nodup := by
    unfold adjustFragment
    rw [henv]
    by_cases h : truthyOpt (lookup e "ANTHROPIC_AUTH_TOKEN") = true <;>
      simp [h, nodup_keys_setKey _ _ _ hndcf, hndcf]
  have hCmodel : lookup (clearedSettings prevSettings) "model" = none :=
    lookup_eraseKey_self _ _
  have hCne : ∀ t, t ≠ "model" → t ≠ "env" →
      lookup (clearedSettings prevSettings) t = lookup prevSettings t := by
    intro t hm he2
    unfold clearedSettings clearPrevEnv
    rw [lookup_eraseKey_ne _ _ _ hm]
    cases hpe : lookup prevSettings "env" with
    | none => rfl
    | some v =>
      cases v with
      | obj pe => rw [lookup_setKey_ne _ _ _ _ he2]
      | null => rfl
      | bool b => rfl
      | num n => rfl
      | str s => rfl
      | arr es => rfl
  have hMenv : lookup r.mergedSettings "env" =
      some (.obj (deepMergeF
        (mergeDest (clearedSettings prevSettings) "env") eAdj)) := by
    rw [hme]
    have := deepMergeF_lookup_of_src "env" (.obj eAdj) (adjustFragment cf token)
      (clearedSettings prevSettings) hndA hAenv
    simpa [mergeStep] using this
  have hD : ∀ k, lookup (mergeDest (clearedSettings prevSettings) "env") k =
      (match lookup prevSettings "env" with
       | some (.obj pe) =>
         if k ∈ envDeleteKeys then none else lookup pe k
       | _ => none) := by
    intro k
    rcases hprevenv with hpe | ⟨pe, hpe⟩
    · have hCenv : lookup (clearedSettings prevSettings) "env" = none := by
        unfold clearedSettings clearPrevEnv
        rw [hpe, lookup_eraseKey_ne _ _ _ (by decide : "env" ≠ "model"), hpe]
      simp [mergeDest, hCenv, hpe, lookup]
    · have hCenv : lookup (clearedSettings prevSettings) "env" =
          some (.obj (envDeleteKeys.foldl eraseKey pe)) := by
        unfold clearedSettings clearPrevEnv
        rw [hpe, lookup_eraseKey_ne _ _ _ (by decide : "env" ≠ "model"),
          lookup_setKey_self]
      simp [mergeDest, hCenv, hpe, Json.truthy, spreadToFields,
        lookup_foldl_eraseKey]
  have hobs : ∀ k, envLookup r.mergedSettings k =
      lookup (deepMergeF
        (mergeDest (clearedSettings prevSettings) "env") eAdj) k := by
    intro k
    unfold envLookup
    rw [hMenv]
  have heAdjAbsent : ∀ k, k ∈ envDeleteKeys ∨ k ≠ "ANTHROPIC_AUTH_TOKEN" →
      lookup e k = none → lookup eAdj k = none := by
    intro k hk hek
    by_cases hka : k = "ANTHROPIC_AUTH_TOKEN"
    · subst hka
      rw [heAdjDef]
      simp [hek, truthyOpt]
    · rw [heAdjNe k hka, hek]
  refine ⟨?_, ?_, ?_, ?_, ?_⟩
  · intro k hk hek
    have heAdjK : lookup eAdj k = none := heAdjAbsent k (Or.inl hk) hek
    rw [hobs, deepMergeF_lookup_notin k eAdj _ heAdjK, hD]
    rcases hprevenv with hpe | ⟨pe, hpe⟩ <;> simp [hpe, hk]
  · intro hm
    have : lookup (adjustFragment cf token) "model" = none := by
      rw [hAne _ (by decide), hm]
    rw [hme, deepMergeF_lookup_notin _ _ _ this, hCmodel]
  · intro k hk hek
    have hka : k ≠ "ANTHROPIC_AUTH_TOKEN" := by
      intro h; exact hk (h ▸ (by decide : "ANTHROPIC_AUTH_TOKEN" ∈ envDeleteKeys))
    have heAdjK : lookup eAdj k = none := heAdjAbsent k (Or.inr hka) hek
    rw [hobs, deepMergeF_lookup_notin k eAdj _ heAdjK, hD]
    rcases hprevenv with hpe | ⟨pe, hpe⟩ <;> simp [hpe, hk, envLookup]
  · intro t hm he2 hct
    have : lookup (adjustFragment cf token) t = none := by
      rw [hAne _ he2, hct]
    rw [hme, deepMergeF_lookup_notin _ _ _ this, hCne _ hm he2]
  · intro u hbase hvert
    constructor
    · have heAdjK : lookup eAdj "ANTHROPIC_VERTEX_BASE_URL" = none :=
        heAdjAbsent _ (Or.inl (by decide)) hvert
      rw [hobs, deepMergeF_lookup_notin _ eAdj _ heAdjK, hD]
      rcases hprevenv with hpe | ⟨pe, hpe⟩
      · simp [hpe]
      · simp only [hpe]
        simp [(by decide : "ANTHROPIC_VERTEX_BASE_URL" ∈ envDeleteKeys)]
    · have heAdjB : lookup eAdj "ANTHROPIC_BASE_URL" = some u := by
        rw [heAdjNe _ (by decide), hbase]
      rw [hobs, deepMergeF_lookup_of_src _ _ _ _ hndeAdj heAdjB]
      simp

/-- Witness for C7: the spec's Vertex-to-plain switching example. -/
theorem c7_switch_clears_stale_keys_witness :
    envLookup [("env", .obj [("OTHER", .str "o"),
        ("ANTHROPIC_AUTH_TOKEN", .str "tk"),
        ("ANTHROPIC_BASE_URL", .str "https://b")]), ("theme", .str "dark")]
      "ANTHROPIC_VERTEX_BASE_URL" = none ∧
    envLookup [("env", .obj [("OTHER", .str "o"),
        ("ANTHROPIC_AUTH_TOKEN", .str "tk"),
        ("ANTHROPIC_BASE_URL", .str "https://b")]), ("theme", .str "dark")]
      "ANTHROPIC_BASE_URL" ≠ none := by
  have hrun : switchConfigE "s" "tk"
      (.obj [("claude", .obj [("env", .obj [("ANTHROPIC_AUTH_TOKEN", .str "tk"),
        ("ANTHROPIC_BASE_URL", .str "https://b")])])])
      (.obj [("sites", .obj [])])
      [("env", .obj [("ANTHROPIC_VERTEX_BASE_URL", .str "v"),
        ("OTHER", .str "o")]), ("theme", .str "dark"), ("model", .str "m")]
      [] "T" = .ok
      { snapshot :=
          { site := "s", siteName := "s",
            baseUrl := some (.str "https://b"), token := "tk",
            tokenName := some "默认Token" },
        persistedCurrent :=
          [("site", .str "s"), ("siteName", .str "s"),
            ("token", .str "tk"), ("tokenName", .str "默认Token"),
            ("updatedAt", .str "T")],
        savedStore :=
          .obj [("sites", .obj []),
            ("currentConfig", .obj [("site", .str "s"), ("siteName", .str "s"),
              ("token", .str "tk"), ("tokenName", .str "默认Token"),
              ("updatedAt", .str "T")])],
        mergedSettings :=
          [("env", .obj [("OTHER", .str "o"),
            ("ANTHROPIC_AUTH_TOKEN", .str "tk"),
            ("ANTHROPIC_BASE_URL", .str "https://b")]), ("theme", .str "dark")],
        configJsonOut := [("primaryApiKey", .str "s")] } := by decide
  have h := c7_switch_clears_stale_keys "s" "tk"
    (.obj [("claude", .obj [("env", .obj [("ANTHROPIC_AUTH_TOKEN", .str "tk"),
      ("ANTHROPIC_BASE_URL", .str "https://b")])])])
    (.obj [("sites", .obj [])])
    [("env", .obj [("ANTHROPIC_VERTEX_BASE_URL", .str "v"),
      ("OTHER", .str "o")]), ("theme", .str "dark"), ("model", .str "m")]
    [] "T" _
    [("env", .obj [("ANTHROPIC_AUTH_TOKEN", .str "tk"),
      ("ANTHROPIC_BASE_URL", .str "https://b")])]
    [("ANTHROPIC_AUTH_TOKEN", .str "tk"), ("ANTHROPIC_BASE_URL", .str "https://b")]
    (.str "tk") (by decide) (by decide) (by decide) (by decide)
    (Or.inr ⟨[("ANTHROPIC_VERTEX_BASE_URL", .str "v"), ("OTHER", .str "o")],
      by decide⟩) (by decide) (by decide) hrun
  exact h.2.2.2.2 (.str "https://b") (by decide) (by decide)

/-- **C3** — when the effective fragment's `env.ANTHROPIC_AUTH_TOKEN` is a
label-to-token mapping, a successful switch resolves `tokenName` to a
label whose value strictly equals the chosen token (undefined when no
label matches, the call still succeeding), and the merged live settings
hold the single chosen token string under `env.ANTHROPIC_AUTH_TOKEN`,
never the mapping. -/
theorem c3_switch_token_name (site token : String)
    (siteConfig allConfigs : Json) (prevSettings prevConfigJson : Fields)
    (now : String) (cf e toks : Fields)
    (hcf : getClaudeConfigE siteConfig = .ok (.obj cf))
    (henv : lookup cf "env" = some (.obj e))
    (hraw : lookup e "ANTHROPIC_AUTH_TOKEN" = some (.obj toks))
    (hndcf : (cf.map Prod.fst).Nodup) (hnde : (e.map Prod.fst).Nodup) :
    (switchConfigE site token siteConfig allConfigs prevSettings
      prevConfigJson now).isOk = true ∧
    (∀ r : SwitchResult,
      switchConfigE site token siteConfig allConfigs prevSettings
        prevConfigJson now = .ok r →
      ((∃ label, (label, Json.str token) ∈ toks) →
        ∃ label, r.snapshot.tokenName = some label ∧
          (label, Json.str token) ∈ toks) ∧
      ((∀ p ∈ toks, p.2 ≠ Json.str token) → r.snapshot.tokenName = none) ∧
      envLookup r.mergedSettings "ANTHROPIC_AUTH_TOKEN" =
        some (.str token)) := by
  have hok := switchConfigE_ok site token siteConfig allConfigs prevSettings
    prevConfigJson now cf e (.obj toks) hcf henv hraw (by simp)
  refine ⟨by rw [hok]; rfl, ?_⟩
  intro r hrun
  rw [hok] at hrun
  have hr := Except.ok.inj hrun
  subst hr
  refine ⟨?_, ?_, ?_⟩
  · rintro ⟨label, hmem⟩
    have hsome : (toks.find? (fun p => p.2 == Json.str token)).isSome :=
      List.find?_isSome.mpr ⟨(label, .str token), hmem, by simp⟩
    obtain ⟨q, hq⟩ := Option.isSome_iff_exists.mp hsome
    have hq2 : q.2 = Json.str token := by
      have := List.find?_some hq
      simpa using this
    have hqmem : q ∈ toks := List.mem_of_find?_eq_some hq
    refine ⟨q.1, ?_, ?_⟩
    · show (toks.find? (fun p => p.2 == Json.str token)).map (·.1) = some q.1
      rw [hq]
      rfl
    · rw [← hq2]
      exact hqmem
  · intro hnone
    show (toks.find? (fun p => p.2 == Json.str token)).map (·.1) = none
    rw [List.find?_eq_none.mpr ?_]
    · rfl
    · intro p hp
      simp [hnone p hp]
  · have hAenv : lookup (adjustFragment cf token) "env" =
        some (.obj (setKey e "ANTHROPIC_AUTH_TOKEN" (.str token))) := by
      unfold adjustFragment
      rw [henv]
      simp [hraw, truthyOpt, Json.truthy, lookup_setKey_self]
    have hndA : ((adjustFragment cf token).map Prod.fst).Nodup := by
      unfold adjustFragment
      rw [henv]
      simp [hraw, truthyOpt, Json.truthy, nodup_keys_setKey _ _ _ hndcf]
    have hMenv : lookup (deepMergeF (clearedSettings prevSettings)
        (adjustFragment cf token)) "env" =
        some (.obj (deepMergeF
          (mergeDest (clearedSettings prevSettings) "env")
          (setKey e "ANTHROPIC_AUTH_TOKEN" (.str token)))) := by
      have := deepMergeF_lookup_of_src "env"
        (.obj (setKey e "ANTHROPIC_AUTH_TOKEN" (.str token)))
        (adjustFragment cf token) (clearedSettings prevSettings) hndA hAenv
      simpa [mergeStep] using this
    have hobs : envLookup (deepMergeF (clearedSettings prevSettings)
        (adjustFragment cf token)) "ANTHROPIC_AUTH_TOKEN" =
        lookup (deepMergeF (mergeDest (clearedSettings prevSettings) "env")
          (setKey e "ANTHROPIC_AUTH_TOKEN" (.str token)))
          "ANTHROPIC_AUTH_TOKEN" := by
      unfold envLookup
      rw [hMenv]
    show envLookup (deepMergeF (clearedSettings prevSettings)
      (adjustFragment cf token)) "ANTHROPIC_AUTH_TOKEN" = some (.str token)
    rw [hobs, deepMergeF_lookup_of_src "ANTHROPIC_AUTH_TOKEN" (.str token) _ _
      (nodup_keys_setKey _ _ _ hnde) (lookup_setKey_self _ _ _)]
    rfl

/-- Witness for C3 at the spec's example mapping
(`{"Primary":"sk-abc","Backup":"sk-def"}`, chosen token `"sk-def"`). -/
theorem c3_switch_token_name_witness :
    (switchConfigE "s" "sk-def"
      (.obj [("claude", .obj [("env", .obj [("ANTHROPIC_AUTH_TOKEN",
        .obj [("Primary", .str "sk-abc"), ("Backup", .str "sk-def")]),
        ("ANTHROPIC_BASE_URL", .str "https://b")])])])
      (.obj [("sites", .obj [])]) [] [] "T").isOk = true :=
  (c3_switch_token_name "s" "sk-def"
    (.obj [("claude", .obj [("env", .obj [("ANTHROPIC_AUTH_TOKEN",
      .obj [("Primary", .str "sk-abc"), ("Backup", .str "sk-def")]),
      ("ANTHROPIC_BASE_URL", .str "https://b")])])])
    (.obj [("sites", .obj [])]) [] [] "T"
    [("env", .obj [("ANTHROPIC_AUTH_TOKEN",
      .obj [("Primary", .str "sk-abc"), ("Backup", .str "sk-def")]),
      ("ANTHROPIC_BASE_URL", .str "https://b")])]
    [("ANTHROPIC_AUTH_TOKEN",
      .obj [("Primary", .str "sk-abc"), ("Backup", .str "sk-def")]),
      ("ANTHROPIC_BASE_URL", .str "https://b")]
    [("Primary", .str "sk-abc"), ("Backup", .str "sk-def")]
    (by decide) (by decide) (by decide) (by decide) (by decide)).1

/-- **C2 (counterexample)** — the claim says the persisted `currentConfig`
stores the fragment's declared base URL under its `url` field; in fact the
snapshot carries the base URL only under `ANTHROPIC_BASE_URL`, and
`saveCurrentConfig` reads the (absent) `url` property, so the persisted
snapshot has no `url` key at all even though the fragment declares a base
URL. -/
theorem c2_counterexample :
    (switchConfigE "s" "tk"
      (.obj [("claude", .obj [("env",
        .obj [("ANTHROPIC_AUTH_TOKEN", .str "tk"),
          ("ANTHROPIC_BASE_URL", .str "https://b")])])])
      (.obj [("sites", .obj [])]) [] [] "T").map
      (fun r => (lookup r.persistedCurrent "url", r.snapshot.baseUrl)) =
    .ok (none, some (.str "https://b")) := by decide

/-- **C2 (amended)** — a successful switch builds and persists a
`currentConfig` snapshot containing the site key, `siteName` equal to the
site key, the chosen token, its resolved display name when one resolves,
and the write timestamp; the fragment's declared base URL is carried only
on the returned in-memory snapshot (under `ANTHROPIC_BASE_URL`) while the
persisted snapshot's `url` and `urlName` fields are always left undefined
and therefore dropped from the written document. -/
theorem c2_switch_snapshot_persisted (site token : String)
    (siteConfig allConfigs : Json) (prevSettings prevConfigJson : Fields)
    (now : String) (cf e : Fields) (rawTokens : Json)
    (hcf : getClaudeConfigE siteConfig = .ok (.obj cf))
    (henv : lookup cf "env" = some (.obj e))
    (hraw : lookup e "ANTHROPIC_AUTH_TOKEN" = some rawTokens)
    (hrnn : rawTokens ≠ .null)
    (r : SwitchResult)
    (hrun : switchConfigE site token siteConfig allConfigs prevSettings
      prevConfigJson now = .ok r) :
    r.snapshot.site = site ∧ r.snapshot.siteName = site ∧
    r.snapshot.baseUrl = lookup e "ANTHROPIC_BASE_URL" ∧
    r.snapshot.token = token ∧
    r.savedStore = saveCurrentConfigStore allConfigs r.snapshot now ∧
    lookup r.persistedCurrent "site" = some (.str site) ∧
    lookup r.persistedCurrent "siteName" = some (.str site) ∧
    lookup r.persistedCurrent "token" = some (.str token) ∧
    (∀ n, r.snapshot.tokenName = some n →
      lookup r.persistedCurrent "tokenName" = some (.str n)) ∧
    (r.snapshot.tokenName = none →
      lookup r.persistedCurrent "tokenName" = none) ∧
    lookup r.persistedCurrent "updatedAt" = some (.str now) ∧
    lookup r.persistedCurrent "url" = none ∧
    lookup r.persistedCurrent "urlName" = none := by
  rw [switchConfigE_ok site token siteConfig allConfigs prevSettings
    prevConfigJson now cf e rawTokens hcf henv hraw hrnn] at hrun
  have hr := Except.ok.inj hrun
  subst hr
  refine ⟨rfl, rfl, rfl, rfl, rfl, ?_, ?_, ?_, ?_, ?_, ?_, ?_, ?_⟩ <;>
    cases htn : tokenNameFor rawTokens token <;>
      simp [persistedCurrentConfig, lookup, htn]

/-- Witness for C2 (amended): the snapshot fields at a concrete switch. -/
theorem c2_switch_snapshot_persisted_witness :
    ({ site := "s", siteName := "s", baseUrl := some (.str "https://b"),
       token := "tk", tokenName := some "默认Token" } : SwitchSnapshot).site
      = "s" :=
  (c2_switch_snapshot_persisted "s" "tk"
    (.obj [("claude", .obj [("env",
      .obj [("ANTHROPIC_AUTH_TOKEN", .str "tk"),
        ("ANTHROPIC_BASE_URL", .str "https://b")])])])
    (.obj [("sites", .obj [])]) [] [] "T"
    [("env", .obj [("ANTHROPIC_AUTH_TOKEN", .str "tk"),
      ("ANTHROPIC_BASE_URL", .str "https://b")])]
    [("ANTHROPIC_AUTH_TOKEN", .str "tk"), ("ANTHROPIC_BASE_URL", .str "https://b")]
    (.str "tk") (by decide) (by decide) (by decide) (by decide)
    { snapshot :=
        { site := "s", siteName := "s", baseUrl := some (.str "https://b"),
          token := "tk", tokenName := some "默认Token" },
      persistedCurrent :=
        [("site", .str "s"), ("siteName", .str "s"), ("token", .str "tk"),
          ("tokenName", .str "默认Token"), ("updatedAt", .str "T")],
      savedStore :=
        .obj [("sites", .obj []),
          ("currentConfig", .obj [("site", .str "s"), ("siteName", .str "s"),
            ("token", .str "tk"), ("tokenName", .str "默认Token"),
            ("updatedAt", .str "T")])],
      mergedSettings :=
        [("env", .obj [("ANTHROPIC_AUTH_TOKEN", .str "tk"),
          ("ANTHROPIC_BASE_URL", .str "https://b")])],
      configJsonOut := [("primaryApiKey", .str "s")] }
    (by decide)).1

/-- `setKey` on an absent key appends. -/
theorem setKey_of_lookup_none (s : Fields) (k : String) (v : Json)
    (h : lookup s k = none) : setKey s k v = s ++ [(k, v)] := by
  induction s with
  | nil => simp [setKey]
  | cons p rest ih =>
    by_cases hp : p.1 = k
    · simp [lookup, hp] at h
    · simp only [lookup, hp, if_false] at h
      simp [setKey, hp, ih h]

/-- Deleting a key just written to a previously key-free object restores
the object. -/
theorem eraseKey_setKey_cancel (s : Fields) (k : String) (v : Json)
    (h : lookup s k = none) : eraseKey (setKey s k v) k = s := by
  induction s with
  | nil => simp [setKey, eraseKey]
  | cons p rest ih =>
    by_cases hp : p.1 = k
    · simp [lookup, hp] at h
    · simp only [lookup, hp, if_false] at h
      simp [setKey, eraseKey, hp, ih h]

/-- Values `h.command?.includes('cc notify-hook')` accepts: a string with
the marker as a substring, or an array with the marker string as an
element. -/
def cmdContainsMark : Json → Bool
  | .str s => includesJs s notifyMark
  | .arr es => es.contains (.str notifyMark)
  | _ => false

theorem getFieldE_ok (t : Json) (k : String) (x : Option Json)
    (h : getFieldE t k = .ok x) : getField t k = x := by
  cases t <;> simp_all [getFieldE, getField]

theorem anyE_true_exists (f : Json → Except Unit Bool) :
    ∀ l : List Json, anyE f l = .ok true → ∃ x ∈ l, f x = .ok true := by
  intro l
  induction l with
  | nil => intro h; simp [anyE] at h
  | cons x xs ih =>
    intro h
    unfold anyE at h
    cases hfx : f x with
    | error e => rw [hfx] at h; exact absurd h (by simp)
    | ok b =>
      cases b with
      | true => exact ⟨x, by simp, hfx⟩
      | false =>
        rw [hfx] at h
        obtain ⟨y, hy, hfy⟩ := ih h
        exact ⟨y, by simp [hy], hfy⟩

theorem checkHookEntry_true (hk : Json) (h : checkHookEntry hk = .ok true) :
    getField hk "type" = some (.str "command") ∧
    ∃ c, getField hk "command" = some c ∧ cmdContainsMark c = true := by
  unfold checkHookEntry at h
  split at h
  · exact absurd h (by simp)
  · rename_i t0 ht
    split at h
    · rename_i htc
      have ht0 : t0 = some (.str "command") := eq_of_beq htc
      refine ⟨ht0 ▸ getFieldE_ok _ _ _ ht, ?_⟩
      split at h
      · exact absurd h (by simp)
      · rename_i c' hc
        cases c' with
        | none => exact absurd h (by simp [includesPropE])
        | some cv =>
          cases cv with
          | null => exact absurd h (by simp [includesPropE])
          | str s =>
            refine ⟨.str s, getFieldE_ok _ _ _ hc, ?_⟩
            simpa [includesPropE, cmdContainsMark] using h
          | arr es =>
            refine ⟨.arr es, getFieldE_ok _ _ _ hc, ?_⟩
            simpa [includesPropE, cmdContainsMark] using h
          | bool b => exact absurd h (by simp [includesPropE])
          | num n => exact absurd h (by simp [includesPropE])
          | obj o => exact absurd h (by simp [includesPropE])
    · exact absurd h (by simp)

theorem checkHookGroup_true (g : Json) (h : checkHookGroup g = .ok true) :
    ∃ hs : List Json, getField g "hooks" = some (.arr hs) ∧
      ∃ hk ∈ hs, checkHookEntry hk = .ok true := by
  unfold checkHookGroup at h
  split at h
  · exact absurd h (by simp)
  · exact absurd h (by simp)
  · exact absurd h (by simp)
  · rename_i hs hg
    exact ⟨hs, getFieldE_ok _ _ _ hg, anyE_true_exists _ _ h⟩
  · exact absurd h (by simp)

theorem evalHasHook_true (t : Json) (evt : String)
    (h : evalHasHook t evt = .ok true) :
    ∃ hv : Json, ∃ groups : List Json, getField t "hooks" = some hv ∧
      getField hv evt = some (.arr groups) ∧
      ∃ g ∈ groups, checkHookGroup g = .ok true := by
  unfold evalHasHook at h
  split at h
  · exact absurd h (by simp)
  · exact absurd h (by simp)
  · exact absurd h (by simp)
  · rename_i hv hne hh
    split at h
    · exact absurd h (by simp)
    · exact absurd h (by simp)
    · exact absurd h (by simp)
    · rename_i groups hl
      exact ⟨hv, groups, getFieldE_ok _ _ _ hh,
        getFieldE_ok _ _ _ hl, anyE_true_exists _ _ h⟩
    · exact absurd h (by simp)

/-- Both hook lists of `settings` hold a command-type entry whose command
contains the notifier marker (the condition `checkStatus` certifies). -/
def HasMatchingHookEntry (t : Json) (evt : String) : Prop :=
  ∃ hv : Json, ∃ groups : List Json, getField t "hooks" = some hv ∧
    getField hv evt = some (.arr groups) ∧
    ∃ g ∈ groups, ∃ hs : List Json, getField g "hooks" = some (.arr hs) ∧
      ∃ hk ∈ hs, getField hk "type" = some (.str "command") ∧
        ∃ c, getField hk "command" = some c ∧ cmdContainsMark c = true

/-- **C9** — from a settings document with no `hooks` key the notification
status reads false; one toggle (add) appends exactly one matching
hook-group entry to each of `hooks.Stop` and `hooks.Notification` and the
status then reads true; `checkStatus` answers true only when both lists
hold a command-type entry whose command contains the notifier marker; and
a second toggle (remove) filters the matching entries out, deletes the
emptied lists and the emptied `hooks` object, restoring the original
document with no `hooks` key. -/
theorem c9_notification_toggle (s : Fields)
    (hhooks : lookup s "hooks" = none) :
    checkStatusDoc (.obj s) = false ∧
    addHooksE s = .ok (setKey s "hooks"
      (.obj [("Stop", .arr [stopHookEntry]),
        ("Notification", .arr [notificationHookEntry])])) ∧
    checkHookGroup stopHookEntry = .ok true ∧
    checkHookGroup notificationHookEntry = .ok true ∧
    checkStatusDoc (.obj (setKey s "hooks"
      (.obj [("Stop", .arr [stopHookEntry]),
        ("Notification", .arr [notificationHookEntry])]))) = true ∧
    removeHooksE (setKey s "hooks"
      (.obj [("Stop", .arr [stopHookEntry]),
        ("Notification", .arr [notificationHookEntry])])) = .ok s ∧
    (∀ t : Json, checkStatusDoc t = true →
      HasMatchingHookEntry t "Stop" ∧ HasMatchingHookEntry t "Notification") := by
  have hfalse : truthyOpt (lookup s "hooks") = false := by rw [hhooks]; rfl
  have hl : lookup (setKey s "hooks"
      (.obj [("Stop", .arr [stopHookEntry]),
        ("Notification", .arr [notificationHookEntry])])) "hooks" =
      some (.obj [("Stop", .arr [stopHookEntry]),
        ("Notification", .arr [notificationHookEntry])]) :=
    lookup_setKey_self _ _ _
  refine ⟨?_, ?_, by decide, by decide, ?_, ?_, ?_⟩
  · simp [checkStatusDoc, evalHasHook, getFieldE, hhooks]
  · have hstep1 : addEventHook [] "Stop" "cc notify-hook stop" stopHookEntry =
        .ok [("Stop", .arr [stopHookEntry])] := by decide
    have hstep2 : addEventHook [("Stop", .arr [stopHookEntry])]
        "Notification" "cc notify-hook notification" notificationHookEntry =
        .ok [("Stop", .arr [stopHookEntry]),
          ("Notification", .arr [notificationHookEntry])] := by decide
    unfold addHooksE
    simp only [hfalse, Bool.false_eq_true, if_false, lookup_setKey_self,
      hstep1, hstep2, setKey_setKey]
  · have ha : anyE checkHookGroup [stopHookEntry] = .ok true := by decide
    have hb : anyE checkHookGroup [notificationHookEntry] = .ok true := by decide
    simp [checkStatusDoc, evalHasHook, getFieldE, hl, lookup, ha, hb]
  · have hrm1 : removeEventHooks
        [("Stop", .arr [stopHookEntry]),
          ("Notification", .arr [notificationHookEntry])] "Stop" =
        .ok [("Notification", .arr [notificationHookEntry])] := by decide
    have hrm2 : removeEventHooks
        [("Notification", .arr [notificationHookEntry])] "Notification" =
        .ok [] := by decide
    unfold removeHooksE
    simp only [hl, hrm1, hrm2]
    simp [eraseKey_setKey_cancel _ _ _ hhooks]
  · intro t ht
    unfold checkStatusDoc at ht
    split at ht
    · exact absurd ht (by simp)
    · rename_i a ha
      split at ht
      · exact absurd ht (by simp)
      · rename_i b hb
        obtain ⟨ha', hb'⟩ : a = true ∧ b = true := by simpa using ht
        rw [ha'] at ha
        rw [hb'] at hb
        have hmk : ∀ evt, evalHasHook t evt = .ok true →
            HasMatchingHookEntry t evt := by
          intro evt hE
          obtain ⟨hv, groups, h1, h2, g, hg, h3⟩ := evalHasHook_true t evt hE
          obtain ⟨hs, h4, hk, hk5, h6⟩ := checkHookGroup_true g h3
          obtain ⟨h7, c, h8, h9⟩ := checkHookEntry_true hk h6
          exact ⟨hv, groups, h1, h2, g, hg, hs, h4, hk, hk5, h7, c, h8, h9⟩
        exact ⟨hmk _ ha, hmk _ hb⟩

/-- Witness for C9: the toggle round-trip on the empty settings
document. -/
theorem c9_notification_toggle_witness :
    removeHooksE (setKey ([] : Fields) "hooks"
      (.obj [("Stop", .arr [stopHookEntry]),
        ("Notification", .arr [notificationHookEntry])])) = .ok [] :=
  (c9_notification_toggle [] rfl).2.2.2.2.2.1

/-- The validity condition exactly as the claim words it, with field
*presence* (rather than JavaScript truthiness) deciding "has a `url`",
fragment resolution and the base-URL choice, and a strict "mapping"
reading of the token rule.  Written from the claim to be compared with
the code's `validateConfig`. -/
def tokenOkOrigB : Option Json → Bool
  | some (.str s) => trimmedNonempty s
  | some (.obj tfs) => !tfs.isEmpty
  | _ => false

def specSiteOrigB (site : Json) : Bool :=
  (getField site "url").isSome &&
  (match (match getField site "claude" with
          | some c => some c
          | none => getField site "config") with
   | none => false
   | some frag =>
     match getField frag "env" with
     | none => false
     | some env =>
       (getField env "ANTHROPIC_AUTH_TOKEN").isSome &&
       tokenOkOrigB (getField env "ANTHROPIC_AUTH_TOKEN") &&
       (match getField env "ANTHROPIC_BASE_URL",
              getField env "ANTHROPIC_VERTEX_BASE_URL" with
        | some b, none => isStrOpt (some b)
        | none, some v => isStrOpt (some v)
        | _, _ => false))

def specValidOrigB (store : Json) : Bool :=
  match store with
  | .obj fs =>
    match lookup fs "sites" with
    | some (.obj sites) => sites.all (fun p => specSiteOrigB p.2)
    | _ => false
  | _ => false

/-- The effective fragment the spec's resolution rule picks: a truthy
`claude` field, else a truthy `config` field. -/
def ResolvesTo (site frag : Json) : Prop :=
  (∃ c, getField site "claude" = some c ∧ c.truthy = true ∧ frag = c) ∨
  ((∀ c, getField site "claude" = some c → c.truthy = false) ∧
    ∃ g, getField site "config" = some g ∧ g.truthy = true ∧ frag = g)

/-- The spec's auth-token rule (amended to JavaScript semantics): a
non-blank-after-trimming string, or a non-null object — mapping or array —
with at least one own entry. -/
def TokenOk (t : Option Json) : Prop :=
  (∃ s, t = some (.str s) ∧ trimmedNonempty s = true) ∨
  (∃ tfs : Fields, t = some (.obj tfs) ∧ tfs ≠ []) ∨
  (∃ tes : List Json, t = some (.arr tes) ∧ tes ≠ [])

/-- The spec's base-URL rule (amended to truthiness): exactly one of the
two URL variants is truthy, and the truthy one is a string. -/
def UrlChoiceOk (env : Json) : Prop :=
  (truthyOpt (getField env "ANTHROPIC_BASE_URL") = true ∧
    truthyOpt (getField env "ANTHROPIC_VERTEX_BASE_URL") = false ∧
    ∃ s, getField env "ANTHROPIC_BASE_URL" = some (.str s)) ∨
  (truthyOpt (getField env "ANTHROPIC_VERTEX_BASE_URL") = true ∧
    truthyOpt (getField env "ANTHROPIC_BASE_URL") = false ∧
    ∃ s, getField env "ANTHROPIC_VERTEX_BASE_URL" = some (.str s))

/-- The spec's per-site validity sentence (amended): a truthy `url`, a
resolvable effective fragment, and an `env` whose auth token and base-URL
choice satisfy the two rules above. -/
def SpecSiteOk (site : Json) : Prop :=
  truthyOpt (getField site "url") = true ∧
  ∃ frag, ResolvesTo site frag ∧
    ∃ env, getField frag "env" = some env ∧
      TokenOk (getField env "ANTHROPIC_AUTH_TOKEN") ∧ UrlChoiceOk env

theorem truthyField_eq_some (site : Json) (k : String) (v : Json) :
    truthyField site k = some v ↔
      getField site k = some v ∧ v.truthy = true := by
  unfold truthyField
  cases hg : getField site k with
  | none => simp
  | some w =>
    by_cases ht : w.truthy = true
    · simp only [ht, if_true]
      constructor
      · rintro h
        obtain rfl := Option.some.inj h
        exact ⟨rfl, ht⟩
      · rintro ⟨h1, _⟩
        obtain rfl := Option.some.inj h1
        rfl
    · simp only [ht, if_false]
      constructor
      · rintro h; exact absurd h (by simp)
      · rintro ⟨h1, h2⟩
        obtain rfl := Option.some.inj h1
        exact absurd h2 ht

theorem truthyField_eq_none (site : Json) (k : String) :
    truthyField site k = none ↔
      ∀ v, getField site k = some v → v.truthy = false := by
  unfold truthyField
  cases hg : getField site k with
  | none => simp
  | some w =>
    by_cases ht : w.truthy = true
    · simp [ht]
    · simp only [ht, if_false]
      constructor
      · intro _ v hv
        obtain rfl := Option.some.inj hv
        exact Bool.not_eq_true _ ▸ ht
      · intro _; rfl

theorem getClaudeConfigE_ok_iff (site frag : Json) :
    getClaudeConfigE site = .ok frag ↔ ResolvesTo site frag := by
  unfold getClaudeConfigE ResolvesTo
  cases hA : truthyField site "claude" with
  | some c =>
    have hac := (truthyField_eq_some site "claude" c).mp hA
    constructor
    · intro h
      obtain rfl := Except.ok.inj h
      exact Or.inl ⟨c, hac.1, hac.2, rfl⟩
    · rintro (⟨c', hc1, hc2, rfl⟩ | ⟨hnone, g, hg1, hg2, rfl⟩)
      · rw [hac.1] at hc1
        obtain rfl := Option.some.inj hc1
        rfl
      · exact absurd (hnone c hac.1) (by simp [hac.2])
  | none =>
    have hcl := (truthyField_eq_none site "claude").mp hA
    cases hB : truthyField site "config" with
    | some g =>
      have hgc := (truthyField_eq_some site "config" g).mp hB
      constructor
      · intro h
        obtain rfl := Except.ok.inj h
        exact Or.inr ⟨hcl, g, hgc.1, hgc.2, rfl⟩
      · rintro (⟨c', hc1, hc2, rfl⟩ | ⟨_, g', hg1, hg2, rfl⟩)
        · exact absurd (hcl _ hc1) (by simp [hc2])
        · rw [hgc.1] at hg1
          obtain rfl := Option.some.inj hg1
          rfl
    | none =>
      have hgl := (truthyField_eq_none site "config").mp hB
      constructor
      · intro h; exact absurd h (by simp)
      · rintro (⟨c', hc1, hc2, rfl⟩ | ⟨_, g', hg1, hg2, rfl⟩)
        · exact absurd (hcl _ hc1) (by simp [hc2])
        · exact absurd (hgl _ hg1) (by simp [hg2])

theorem isStrOpt_iff (o : Option Json) :
    isStrOpt o = true ↔ ∃ s, o = some (.str s) := by
  cases o with
  | none => simp [isStrOpt]
  | some v => cases v <;> simp [isStrOpt]

theorem getField_auth_of_falsy (env : Json) (h : env.truthy = false)
    (k : String) : getField env k = none := by
  cases env <;> simp_all [Json.truthy, getField]

theorem tokenOk_falsy (t : Option Json) (h : truthyOpt t = false) :
    ¬TokenOk t := by
  rintro (⟨s, rfl, hs⟩ | ⟨tfs, rfl, _⟩ | ⟨tes, rfl, _⟩)
  · simp only [truthyOpt, Json.truthy] at h
    have : s = "" := by simpa using h
    subst this
    simp [trimmedNonempty] at hs
  · simp [truthyOpt, Json.truthy] at h
  · simp [truthyOpt, Json.truthy] at h

theorem validateEnvB_eval_token (env : Json) (h1 : env.truthy = true)
    (h2 : truthyOpt (getField env "ANTHROPIC_AUTH_TOKEN") = true)
    (hUrl : UrlChoiceOk env) :
    validateEnvB env = true ↔
      TokenOk (getField env "ANTHROPIC_AUTH_TOKEN") ∧ UrlChoiceOk env := by
  have hBV : (truthyOpt (getField env "ANTHROPIC_BASE_URL") = true ∧
      truthyOpt (getField env "ANTHROPIC_VERTEX_BASE_URL") = false ∧
      isStrOpt (getField env "ANTHROPIC_BASE_URL") = true) ∨
      (truthyOpt (getField env "ANTHROPIC_VERTEX_BASE_URL") = true ∧
      truthyOpt (getField env "ANTHROPIC_BASE_URL") = false ∧
      isStrOpt (getField env "ANTHROPIC_VERTEX_BASE_URL") = true) := by
    rcases hUrl with ⟨hB, hV, hsx⟩ | ⟨hV, hB, hsx⟩
    · exact Or.inl ⟨hB, hV, (isStrOpt_iff _).mpr hsx⟩
    · exact Or.inr ⟨hV, hB, (isStrOpt_iff _).mpr hsx⟩
  cases htok : getField env "ANTHROPIC_AUTH_TOKEN" with
  | none => rw [htok] at h2; simp [truthyOpt] at h2
  | some tv =>
    have h2s : truthyOpt (some tv) = true := htok ▸ h2
    cases tv with
    | null => simp [truthyOpt, Json.truthy] at h2s
    | bool b =>
      have hL : validateEnvB env = false := by
        rcases hBV with ⟨hB, hV, hS⟩ | ⟨hV, hB, hS⟩ <;>
          simp [validateEnvB, h1, htok, h2s, hB, hV, hS]
      rw [hL]
      simp [TokenOk, htok]
    | num n =>
      have hL : validateEnvB env = false := by
        rcases hBV with ⟨hB, hV, hS⟩ | ⟨hV, hB, hS⟩ <;>
          simp [validateEnvB, h1, htok, h2s, hB, hV, hS]
      rw [hL]
      simp [TokenOk, htok]
    | str s =>
      have hL : validateEnvB env = trimmedNonempty s := by
        rcases hBV with ⟨hB, hV, hS⟩ | ⟨hV, hB, hS⟩ <;>
          simp [validateEnvB, h1, htok, h2s, hB, hV, hS]
      rw [hL]
      simp [TokenOk, htok, hUrl]
    | obj tfs =>
      have hL : validateEnvB env = (tfs.length != 0) := by
        rcases hBV with ⟨hB, hV, hS⟩ | ⟨hV, hB, hS⟩ <;>
          simp [validateEnvB, h1, htok, h2s, hB, hV, hS]
      rw [hL]
      simp [TokenOk, htok, hUrl, List.length_eq_zero]
    | arr tes =>
      have hL : validateEnvB env = (tes.length != 0) := by
        rcases hBV with ⟨hB, hV, hS⟩ | ⟨hV, hB, hS⟩ <;>
          simp [validateEnvB, h1, htok, h2s, hB, hV, hS]
      rw [hL]
      simp [TokenOk, htok, hUrl, List.length_eq_zero]

theorem validateEnvB_iff (env : Json) :
    validateEnvB env = true ↔
      TokenOk (getField env "ANTHROPIC_AUTH_TOKEN") ∧ UrlChoiceOk env := by
  by_cases h1 : env.truthy = true
  case neg =>
    have h1' : env.truthy = false := by simpa using h1
    have htok : getField env "ANTHROPIC_AUTH_TOKEN" = none :=
      getField_auth_of_falsy env h1' _
    simp [validateEnvB, h1', htok, TokenOk]
  case pos =>
    by_cases h2 : truthyOpt (getField env "ANTHROPIC_AUTH_TOKEN") = true
    case neg =>
      have h2' : truthyOpt (getField env "ANTHROPIC_AUTH_TOKEN") = false := by
        simpa using h2
      have hL : validateEnvB env = false := by simp [validateEnvB, h1, h2']
      rw [hL]
      simp only [Bool.false_eq_true, false_iff]
      exact fun hc => tokenOk_falsy _ h2' hc.1
    case pos =>
      by_cases hB : truthyOpt (getField env "ANTHROPIC_BASE_URL") = true <;>
        by_cases hV : truthyOpt (getField env "ANTHROPIC_VERTEX_BASE_URL") = true
      · have hL : validateEnvB env = false := by
          simp [validateEnvB, h1, h2, hB, hV]
        rw [hL]
        simp only [Bool.false_eq_true, false_iff]
        rintro ⟨_, (⟨_, hvf, _⟩ | ⟨_, hbf, _⟩)⟩
        · simp [hV] at hvf
        · simp [hB] at hbf
      · have hV' : truthyOpt (getField env "ANTHROPIC_VERTEX_BASE_URL") =
            false := by simpa using hV
        by_cases hS : isStrOpt (getField env "ANTHROPIC_BASE_URL") = true
        · exact validateEnvB_eval_token env h1 h2
            (Or.inl ⟨hB, hV', (isStrOpt_iff _).mp hS⟩)
        · have hS' : isStrOpt (getField env "ANTHROPIC_BASE_URL") = false := by
            simpa using hS
          have hL : validateEnvB env = false := by
            simp [validateEnvB, h1, h2, hB, hV', hS']
          rw [hL]
          simp only [Bool.false_eq_true, false_iff]
          rintro ⟨_, (⟨_, _, hsx⟩ | ⟨hvt, _, _⟩)⟩
          · exact absurd ((isStrOpt_iff _).mpr hsx) (by simp [hS'])
          · simp [hV'] at hvt
      · have hB' : truthyOpt (getField env "ANTHROPIC_BASE_URL") = false := by
          simpa using hB
        by_cases hS : isStrOpt (getField env "ANTHROPIC_VERTEX_BASE_URL") = true
        · exact validateEnvB_eval_token env h1 h2
            (Or.inr ⟨hV, hB', (isStrOpt_iff _).mp hS⟩)
        · have hS' : isStrOpt (getField env "ANTHROPIC_VERTEX_BASE_URL") =
              false := by simpa using hS
          have hL : validateEnvB env = false := by
            simp [validateEnvB, h1, h2, hB', hV, hS']
          rw [hL]
          simp only [Bool.false_eq_true, false_iff]
          rintro ⟨_, (⟨hbt, _, _⟩ | ⟨_, _, hsx⟩)⟩
          · simp [hB'] at hbt
          · exact absurd ((isStrOpt_iff _).mpr hsx) (by simp [hS'])
      · have hB' : truthyOpt (getField env "ANTHROPIC_BASE_URL") = false := by
          simpa using hB
        have hV' : truthyOpt (getField env "ANTHROPIC_VERTEX_BASE_URL") =
            false := by simpa using hV
        have hL : validateEnvB env = false := by
          simp [validateEnvB, h1, h2, hB', hV']
        rw [hL]
        simp only [Bool.false_eq_true, false_iff]
        rintro ⟨_, (⟨hbt, _, _⟩ | ⟨hvt, _, _⟩)⟩
        · simp [hB'] at hbt
        · simp [hV'] at hvt

theorem validateSite_iff (site : Json) :
    validateSite site = true ↔ SpecSiteOk site := by
  unfold validateSite SpecSiteOk
  constructor
  · intro h
    rw [Bool.and_eq_true] at h
    refine ⟨h.1, ?_⟩
    have h2 := h.2
    cases hcc : getClaudeConfigE site with
    | error e => simp only [hcc] at h2; exact absurd h2 (by simp)
    | ok frag =>
      simp only [hcc] at h2
      refine ⟨frag, (getClaudeConfigE_ok_iff site frag).mp hcc, ?_⟩
      unfold validateFragB at h2
      cases he : getField frag "env" with
      | none => simp only [he] at h2; exact absurd h2 (by simp)
      | some env =>
        simp only [he] at h2
        exact ⟨env, rfl, (validateEnvB_iff env).mp h2⟩
  · rintro ⟨hurl, frag, hres, env, he, hrest⟩
    have hcc : getClaudeConfigE site = .ok frag :=
      (getClaudeConfigE_ok_iff site frag).mpr hres
    rw [Bool.and_eq_true]
    refine ⟨hurl, ?_⟩
    simp only [hcc]
    unfold validateFragB
    simp only [he]
    exact (validateEnvB_iff env).mpr hrest

/-- **C6 (counterexample)** — the claim reads field *presence* where the
code tests JavaScript truthiness: a Site Entry whose `url` is the empty
string satisfies every condition of the claim as written (`url` present,
fragment resolves, token non-blank, exactly one base-URL variant present
and a string) yet `validateConfig` returns `false`. -/
theorem c6_counterexample :
    validateConfig (.obj [("sites", .obj [("a", .obj [("url", .str ""),
      ("claude", .obj [("env", .obj [("ANTHROPIC_AUTH_TOKEN", .str "sk-1"),
        ("ANTHROPIC_BASE_URL", .str "https://x")])])])])]) = false ∧
    specValidOrigB (.obj [("sites", .obj [("a", .obj [("url", .str ""),
      ("claude", .obj [("env", .obj [("ANTHROPIC_AUTH_TOKEN", .str "sk-1"),
        ("ANTHROPIC_BASE_URL", .str "https://x")])])])])]) = true := by
  decide

/-- **C6 (amended)** — for a store object whose `sites` field is an
object, `validateConfig` returns true iff every Site Entry has a truthy
`url`, resolves to an effective fragment (truthy `claude`, else truthy
`config`) whose `env` carries an auth token that is a
non-blank-after-trimming string or a non-null object (mapping or array)
with at least one own entry, and exactly one JS-truthy base-URL variant,
that one a string. -/
theorem c6_validate_iff (fs sites : Fields)
    (hs : lookup fs "sites" = some (.obj sites)) :
    validateConfig (.obj fs) = true ↔ ∀ p ∈ sites, SpecSiteOk p.2 := by
  unfold validateConfig
  simp only [hs, List.all_eq_true]
  constructor
  · intro h p hp
    exact (validateSite_iff p.2).mp (h p hp)
  · intro h p hp
    exact (validateSite_iff p.2).mpr (h p hp)

/-- Witness for C6 (amended): the minimal valid entry satisfies the spec
side of the equivalence. -/
theorem c6_validate_iff_witness :
    SpecSiteOk (.obj [("url", .str "u"),
      ("claude", .obj [("env", .obj [("ANTHROPIC_AUTH_TOKEN", .str "sk-1"),
        ("ANTHROPIC_BASE_URL", .str "https://x")])])]) :=
  (c6_validate_iff [("sites", .obj [("a", .obj [("url", .str "u"),
      ("claude", .obj [("env", .obj [("ANTHROPIC_AUTH_TOKEN", .str "sk-1"),
        ("ANTHROPIC_BASE_URL", .str "https://x")])])])])]
    [("a", .obj [("url", .str "u"),
      ("claude", .obj [("env", .obj [("ANTHROPIC_AUTH_TOKEN", .str "sk-1"),
        ("ANTHROPIC_BASE_URL", .str "https://x")])])])]
    (by decide)).mp (by decide)
    ("a", .obj [("url", .str "u"),
      ("claude", .obj [("env", .obj [("ANTHROPIC_AUTH_TOKEN", .str "sk-1"),
        ("ANTHROPIC_BASE_URL", .str "https://x")])])])
    (by decide)

/-- Witness for C1 (amended): a claude-only entry gains a `config` copy. -/
theorem c1_compat_pass_fills_config_witness :
    getAllConfigsE (.parsed (.obj [("sites", .obj [("a",
        .obj [("claude", .obj [("env", .obj [])])])])])) =
      .ok (.obj (setKey [("sites", .obj [("a",
        .obj [("claude", .obj [("env", .obj [])])])])] "sites"
        (.obj ([("a", .obj [("claude", .obj [("env", .obj [])])])].map
          (fun p => (p.1, compatSite p.2)))))) :=
  (c1_compat_pass_fills_config _ _ (by decide)).1

end CcCli
